import Mathlib

/-!
Verification of the community-feed backend (Django app `feed`).

The Python source (models.py, views.py) is shallowly embedded: database
tables become lists of rows, each viewset action becomes a pure function
from an explicit `DBState` to a result paired with the successor state,
and ORM queries become list operations.  Machine integers are modelled by
`Int`/`Nat` (SQLite/Postgres integers never overflow at the sizes involved,
and Django raises on `PositiveIntegerField` underflow; non-negativity of
counters is proved, not assumed).  Rows carry exactly the columns the
verified code paths read or write; display-only columns (avatar, content
timestamps, ...) are omitted.
-/

namespace Feed

/-! ### Data model (models.py) -/

/-- `Like.target_type` (models.py:106-111). -/
inductive TargetType
  | post
  | comment
deriving DecidableEq, Repr

/-- `KarmaTransaction.reason` (models.py:147-152). -/
inductive KarmaReason
  | post_like
  | comment_like
deriving DecidableEq, Repr

/-- A row of the `users` table (models.py:17-36).  `total_karma` is a
`PositiveIntegerField`, hence `Nat`. -/
structure UserRow where
  id : Nat
  total_karma : Nat
deriving DecidableEq, Repr

/-- A row of the `posts` table (models.py:39-58).  `likes_count` is modelled
as `Int` so that its non-negativity is a proved invariant rather than a
typing assumption. -/
structure PostRow where
  id : Nat
  author_id : Nat
  content : String
  likes_count : Int
deriving DecidableEq, Repr

/-- A row of the `comments` table (models.py:61-96). -/
structure CommentRow where
  id : Nat
  post_id : Nat
  parent_id : Option Nat
  author_id : Nat
  content : String
  likes_count : Int
deriving DecidableEq, Repr

/-- A row of the `likes` table (models.py:99-132), keyed by
`(user, target_type, target_id)`. -/
structure LikeRow where
  user_id : Nat
  target_type : TargetType
  target_id : Nat
deriving DecidableEq, Repr

/-- A row of the `karma_transactions` table (models.py:135-179).
`amount` is a signed `IntegerField`; `created_at` is modelled as an
integer timestamp (seconds). -/
structure KarmaTransactionRow where
  user_id : Nat
  amount : Int
  reason : KarmaReason
  source_id : Nat
  liker_id : Option Nat
  created_at : Int
deriving DecidableEq, Repr

/-- The whole relational store, each table in insertion order. -/
structure DBState where
  users : List UserRow
  posts : List PostRow
  comments : List CommentRow
  likes : List LikeRow
  karma : List KarmaTransactionRow
deriving DecidableEq, Repr

/-! ### Comment tree builder (views.py:34-72) -/

/-- The `comment_map` dict built by the first pass of `build_comment_tree`
(views.py:57-61).  A Python dict lookup returns the most recently inserted
value for a key, hence the search over the reversed list. -/
def comment_map (comments : List CommentRow) (i : Nat) : Option CommentRow :=
  comments.reverse.find? (fun c => decide (c.id = i))

/-- The second pass of `build_comment_tree` (views.py:63-72), recursing in
input order.  The first component collects `root_comments`; the second
records each `parent._prefetched_replies.append(comment)` mutation as a
`(parent id, child)` pair, in execution order.  A comment whose
`parent_id` is absent from the map falls through the `if parent:` guard
and is recorded nowhere. -/
def tree_pass (m : Nat → Option CommentRow) :
    List CommentRow → List CommentRow × List (Nat × CommentRow)
  | [] => ([], [])
  | c :: cs =>
    let rest := tree_pass m cs
    match c.parent_id with
    | none => (c :: rest.1, rest.2)
    | some pid =>
      match m pid with
      | some parent => (rest.1, (parent.id, c) :: rest.2)
      | none => rest

/-- `build_comment_tree(comments)` (views.py:34-72): the returned root list
together with the reply attachments made on the comment objects. -/
def build_comment_tree (comments : List CommentRow) :
    List CommentRow × List (Nat × CommentRow) :=
  tree_pass (comment_map comments) comments

/-! ### ORM primitives shared by the viewset actions -/

/-- `Post.objects.get(pk=pk)` (unique primary key: first match). -/
def getPost (st : DBState) (pk : Nat) : Option PostRow :=
  st.posts.find? (fun p => decide (p.id = pk))

/-- `Comment.objects.get(pk=pk)`. -/
def getComment (st : DBState) (pk : Nat) : Option CommentRow :=
  st.comments.find? (fun c => decide (c.id = pk))

/-- `Like.objects.filter(user=u, target_type=tt, target_id=tid).exists()`. -/
def likeExists (st : DBState) (u : Nat) (tt : TargetType) (tid : Nat) : Bool :=
  st.likes.any (fun l => decide (l.user_id = u ∧ l.target_type = tt ∧ l.target_id = tid))

/-- `Post.objects.filter(pk=pk).update(likes_count=F('likes_count') + d)`:
the race-safe in-place increment (`d = 1` on like, `d = -1` on unlike). -/
def updatePostLikes (st : DBState) (pk : Nat) (d : Int) : DBState :=
  { st with posts :=
      st.posts.map fun p =>
        if p.id = pk then { p with likes_count := p.likes_count + d } else p }

/-- `Comment.objects.filter(pk=pk).update(likes_count=F('likes_count') + d)`. -/
def updateCommentLikes (st : DBState) (pk : Nat) (d : Int) : DBState :=
  { st with comments :=
      st.comments.map fun c =>
        if c.id = pk then { c with likes_count := c.likes_count + d } else c }

/-- `User.objects.filter(pk=uid).update(total_karma=F('total_karma') + d)`. -/
def updateUserKarma (st : DBState) (uid : Nat) (d : Nat) : DBState :=
  { st with users :=
      st.users.map fun u =>
        if u.id = uid then { u with total_karma := u.total_karma + d } else u }

/-- The `likes_count` column of a target row as read back by
`refresh_from_db()` (0 when the row is absent). -/
def targetLikesCount (st : DBState) (tt : TargetType) (tid : Nat) : Int :=
  match tt with
  | .post => ((getPost st tid).map (fun p => p.likes_count)).getD 0
  | .comment => ((getComment st tid).map (fun c => c.likes_count)).getD 0

/-- Number of `likes` rows for a target (all likers). -/
def likeRowCount (st : DBState) (tt : TargetType) (tid : Nat) : Nat :=
  st.likes.countP (fun l => decide (l.target_type = tt ∧ l.target_id = tid))

/-- The author column of the target row. -/
def targetAuthor (st : DBState) (tt : TargetType) (tid : Nat) : Option Nat :=
  match tt with
  | .post => (getPost st tid).map (fun p => p.author_id)
  | .comment => (getComment st tid).map (fun c => c.author_id)

/-- Cached `total_karma` of a user (0 when the row is absent). -/
def userTotalKarma (st : DBState) (uid : Nat) : Nat :=
  (((st.users.find? (fun u => decide (u.id = uid)))).map
    (fun u => u.total_karma)).getD 0

/-! ### Viewset actions (views.py)

Each action takes the actor resolved by `_get_current_user` as an
`Option Nat` (views.py:384-402 supplies it; `None` models "no resolved
actor") and the current store, and returns the HTTP-level outcome paired
with the successor store.  The `if not user:` guard sits before
`transaction.atomic()` in every mutating action, so the `unauthorized`
branch touches no state. -/

/-- Outcome of a like action: 401 / 404 / 400 "Already liked" /
`{'likes': n, 'karma_awarded': k}`. -/
inductive LikeResult
  | unauthorized
  | notFound
  | alreadyLiked
  | success (likes : Int) (karma_awarded : Int)
deriving DecidableEq, Repr

/-- Outcome of an unlike action: 401 / 404 / 400 "Like not found" /
`{'likes': n}`. -/
inductive UnlikeResult
  | unauthorized
  | notFound
  | likeNotFound
  | success (likes : Int)
deriving DecidableEq, Repr

/-- Outcome of a create action. -/
inductive CreateResult
  | unauthorized
  | validationError
  | created (id : Nat)
deriving DecidableEq, Repr

/-- `PostViewSet.like` (views.py:186-260).  Inside the transaction: lock and
fetch the post, re-check the like, insert the `Like` row, `F()`-increment
`likes_count`, append the +5 `KarmaTransaction`, `F()`-increment the
author's `total_karma`, then respond with the refreshed count. -/
def post_like (user : Option Nat) (pk : Nat) (now : Int) (st : DBState) :
    LikeResult × DBState :=
  match user with
  | none => (.unauthorized, st)
  | some u =>
    match getPost st pk with
    | none => (.notFound, st)
    | some post =>
      if likeExists st u .post post.id then (.alreadyLiked, st)
      else
        let st := { st with likes := st.likes ++ [⟨u, .post, post.id⟩] }
        let st := updatePostLikes st pk 1
        let st := { st with karma :=
          st.karma ++ [⟨post.author_id, 5, .post_like, post.id, some u, now⟩] }
        let st := updateUserKarma st post.author_id 5
        (.success (targetLikesCount st .post pk) 5, st)

/-- `PostViewSet.unlike` (views.py:262-308): delete the first matching
`Like` row, `F()`-decrement `likes_count`; no `KarmaTransaction` is
written (views.py:295-296). -/
def post_unlike (user : Option Nat) (pk : Nat) (st : DBState) :
    UnlikeResult × DBState :=
  match user with
  | none => (.unauthorized, st)
  | some u =>
    match getPost st pk with
    | none => (.notFound, st)
    | some post =>
      match st.likes.find? (fun l =>
          decide (l.user_id = u ∧ l.target_type = .post ∧ l.target_id = post.id)) with
      | none => (.likeNotFound, st)
      | some _ =>
        let st := { st with likes := st.likes.eraseP (fun l =>
          decide (l.user_id = u ∧ l.target_type = .post ∧ l.target_id = post.id)) }
        let st := updatePostLikes st pk (-1)
        (.success (targetLikesCount st .post pk), st)

/-- `CommentViewSet.like` (views.py:432-495): same shape as `post_like`
with a +1 `comment_like` transaction. -/
def comment_like (user : Option Nat) (pk : Nat) (now : Int) (st : DBState) :
    LikeResult × DBState :=
  match user with
  | none => (.unauthorized, st)
  | some u =>
    match getComment st pk with
    | none => (.notFound, st)
    | some comment =>
      if likeExists st u .comment comment.id then (.alreadyLiked, st)
      else
        let st := { st with likes := st.likes ++ [⟨u, .comment, comment.id⟩] }
        let st := updateCommentLikes st pk 1
        let st := { st with karma :=
          st.karma ++ [⟨comment.author_id, 1, .comment_like, comment.id, some u, now⟩] }
        let st := updateUserKarma st comment.author_id 1
        (.success (targetLikesCount st .comment pk) 1, st)

/-- `CommentViewSet.unlike` (views.py:497-539). -/
def comment_unlike (user : Option Nat) (pk : Nat) (st : DBState) :
    UnlikeResult × DBState :=
  match user with
  | none => (.unauthorized, st)
  | some u =>
    match getComment st pk with
    | none => (.notFound, st)
    | some comment =>
      match st.likes.find? (fun l =>
          decide (l.user_id = u ∧ l.target_type = .comment ∧ l.target_id = comment.id)) with
      | none => (.likeNotFound, st)
      | some _ =>
        let st := { st with likes := st.likes.eraseP (fun l =>
          decide (l.user_id = u ∧ l.target_type = .comment ∧ l.target_id = comment.id)) }
        let st := updateCommentLikes st pk (-1)
        (.success (targetLikesCount st .comment pk), st)

/-- Auto-increment primary key assignment for `posts`. -/
def nextPostId (st : DBState) : Nat :=
  (st.posts.map (fun p => p.id)).foldr max 0 + 1

/-- Auto-increment primary key assignment for `comments`. -/
def nextCommentId (st : DBState) : Nat :=
  (st.comments.map (fun c => c.id)).foldr max 0 + 1

/-- `PostViewSet.create` (views.py:168-184) with
`PostCreateSerializer.validate_content` (serializers.py:158-164): reject
content empty after stripping or longer than 2000 characters, else store
the stripped content with `likes_count = 0`. -/
def post_create (user : Option Nat) (content : String) (st : DBState) :
    CreateResult × DBState :=
  match user with
  | none => (.unauthorized, st)
  | some u =>
    if content.trim.length < 1 ∨ 2000 < content.length then (.validationError, st)
    else
      let pid := nextPostId st
      (.created pid, { st with posts := st.posts ++ [⟨pid, u, content.trim, 0⟩] })

/-- `CommentViewSet.create` (views.py:414-430) with
`CommentCreateSerializer` (serializers.py:80-96): the `post` field must
reference an existing post, a `parent` must be a comment on the same post
(`validate_parent`), and the content field is a non-blank string of at
most the model's 1000 characters. -/
def comment_create (user : Option Nat) (postId : Nat) (parent : Option Nat)
    (content : String) (st : DBState) : CreateResult × DBState :=
  match user with
  | none => (.unauthorized, st)
  | some u =>
    if (getPost st postId).isNone then (.validationError, st)
    else if content.trim.length < 1 ∨ 1000 < content.length then (.validationError, st)
    else
      match parent with
      | some pid =>
        match getComment st pid with
        | none => (.validationError, st)
        | some par =>
          if par.post_id = postId then
            let cid := nextCommentId st
            (.created cid, { st with comments :=
              st.comments ++ [⟨cid, postId, some pid, u, content.trim, 0⟩] })
          else (.validationError, st)
      | none =>
        let cid := nextCommentId st
        (.created cid, { st with comments :=
          st.comments ++ [⟨cid, postId, none, u, content.trim, 0⟩] })

/-- The `like(actor, "post"|"comment", id)` entry point: urls.py routes
`POST /posts/{pk}/like/` to `PostViewSet.like` and
`POST /comments/{pk}/like/` to `CommentViewSet.like`. -/
def like (user : Option Nat) (tt : TargetType) (pk : Nat) (now : Int)
    (st : DBState) : LikeResult × DBState :=
  match tt with
  | .post => post_like user pk now st
  | .comment => comment_like user pk now st

/-- The `unlike(actor, "post"|"comment", id)` entry point. -/
def unlike (user : Option Nat) (tt : TargetType) (pk : Nat) (st : DBState) :
    UnlikeResult × DBState :=
  match tt with
  | .post => post_unlike user pk st
  | .comment => comment_unlike user pk st

/-! ### Operation sequences

A request trace against the mutating entry points, used for the
whole-system invariants (counter conservation, karma-ledger shape). -/

/-- One mutating request. -/
inductive Op
  | likePost (user : Option Nat) (pk : Nat) (now : Int)
  | unlikePost (user : Option Nat) (pk : Nat)
  | likeComment (user : Option Nat) (pk : Nat) (now : Int)
  | unlikeComment (user : Option Nat) (pk : Nat)
  | createPost (user : Option Nat) (content : String)
  | createComment (user : Option Nat) (postId : Nat) (parent : Option Nat) (content : String)
deriving Repr

/-- The state reached after one request. -/
def applyOp (st : DBState) : Op → DBState
  | .likePost u pk now => (post_like u pk now st).2
  | .unlikePost u pk => (post_unlike u pk st).2
  | .likeComment u pk now => (comment_like u pk now st).2
  | .unlikeComment u pk => (comment_unlike u pk st).2
  | .createPost u content => (post_create u content st).2
  | .createComment u postId parent content => (comment_create u postId parent content st).2

/-- Whether a like action responded with HTTP 200. -/
def LikeResult.isSuccess : LikeResult → Bool
  | .success _ _ => true
  | _ => false

/-- Whether an unlike action responded with HTTP 200. -/
def UnlikeResult.isSuccess : UnlikeResult → Bool
  | .success _ => true
  | _ => false

/-- 1 when the request is a like of the given target observed to succeed
in state `st`, else 0. -/
def createdBy (tt : TargetType) (tid : Nat) (st : DBState) : Op → Nat
  | .likePost u pk now =>
      if tt = .post ∧ tid = pk ∧ (post_like u pk now st).1.isSuccess then 1 else 0
  | .likeComment u pk now =>
      if tt = .comment ∧ tid = pk ∧ (comment_like u pk now st).1.isSuccess then 1 else 0
  | _ => 0

/-- 1 when the request is an unlike of the given target observed to
succeed in state `st`, else 0. -/
def deletedBy (tt : TargetType) (tid : Nat) (st : DBState) : Op → Nat
  | .unlikePost u pk =>
      if tt = .post ∧ tid = pk ∧ (post_unlike u pk st).1.isSuccess then 1 else 0
  | .unlikeComment u pk =>
      if tt = .comment ∧ tid = pk ∧ (comment_unlike u pk st).1.isSuccess then 1 else 0
  | _ => 0

/-- Apply one request and account its successful like creation/deletion
for the observed target. -/
def opStep (tt : TargetType) (tid : Nat) (acc : DBState × Nat × Nat) (op : Op) :
    DBState × Nat × Nat :=
  (applyOp acc.1 op,
   acc.2.1 + createdBy tt tid acc.1 op,
   acc.2.2 + deletedBy tt tid acc.1 op)

/-- Run a request trace, counting the successful like creations and like
deletions for one target. -/
def runOps (tt : TargetType) (tid : Nat) (st : DBState) (ops : List Op) :
    DBState × Nat × Nat :=
  ops.foldl (opStep tt tid) (st, 0, 0)

/-! ### Leaderboard (views.py:555-609)

`LeaderboardView.get` aggregates `KarmaTransaction` rows from the last
24 hours grouped by recipient, keeps positive sums, orders descending,
takes 5, and enumerates ranks from 1.  SQL leaves the order of equal sums
unspecified; the model groups keys by first appearance among the
in-window rows and sorts stably, one concrete realisation of that
freedom.  No claim depends on the tie order. -/

/-- `timezone.now() - timedelta(hours=24)`, timestamps in seconds. -/
def window_start (now : Int) : Int :=
  now - 24 * 60 * 60

/-- `KarmaTransaction.objects.filter(created_at__gte=twenty_four_hours_ago)`. -/
def recentTxs (now : Int) (txs : List KarmaTransactionRow) :
    List KarmaTransactionRow :=
  txs.filter (fun t => decide (window_start now ≤ t.created_at))

/-- Group-by keys in order of first appearance. -/
def firstKeys : List Nat → List Nat :=
  List.foldl (fun acc k => if k ∈ acc then acc else acc ++ [k]) []

/-- `Coalesce(Sum('amount'), 0)` for one recipient: sums are over
non-empty groups, and an empty selection sums to 0, never to null. -/
def sumAmounts (txs : List KarmaTransactionRow) (a : Nat) : Int :=
  ((txs.filter (fun t => decide (t.user_id = a))).map (fun t => t.amount)).sum

/-- Stable descending insertion on the summed amount. -/
def insert_desc (e : Nat × Int) : List (Nat × Int) → List (Nat × Int)
  | [] => [e]
  | f :: fs => if f.2 ≤ e.2 then e :: f :: fs else f :: insert_desc e fs

/-- `order_by('-karma_24h')` as a stable sort. -/
def sort_desc : List (Nat × Int) → List (Nat × Int)
  | [] => []
  | x :: xs => insert_desc x (sort_desc xs)

/-- The `leaderboard_data` queryset (views.py:581-591):
`(user_id, karma_24h)` pairs — window filter, group by recipient,
null-safe sum, keep sums `> 0`, order descending, take 5. -/
def leaderboard_data (now : Int) (txs : List KarmaTransactionRow) :
    List (Nat × Int) :=
  let recent := recentTxs now txs
  (sort_desc
    (((firstKeys (recent.map (fun t => t.user_id))).map
        (fun k => (k, sumAmounts recent k))).filter
      (fun e => decide (0 < e.2)))).take 5

/-- One serialized leaderboard entry (views.py:602-606). -/
structure LeaderboardEntry where
  user : UserRow
  karma_24h : Int
  rank : Nat
deriving DecidableEq, Repr

/-- The `for rank, entry in enumerate(leaderboard_data, 1)` loop
(views.py:598-606): look each recipient up among the fetched users and
append the entry; the enumeration index advances per data row. -/
def build_result (users : List UserRow) : Nat → List (Nat × Int) → List LeaderboardEntry
  | _, [] => []
  | rank, (k, s) :: rest =>
    match users.find? (fun u => decide (u.id = k)) with
    | some u => ⟨u, s, rank⟩ :: build_result users (rank + 1) rest
    | none => build_result users (rank + 1) rest

/-- `LeaderboardView.get` (views.py:564-609), from the transaction table
and the user table to the response list. -/
def get_leaderboard (now : Int) (txs : List KarmaTransactionRow)
    (users : List UserRow) : List LeaderboardEntry :=
  build_result users 1 (leaderboard_data now txs)

/-! ### Theorems: comment tree builder -/

/-- The root list returned by the second pass is exactly the parentless
comments, in input order. -/
theorem tree_pass_fst (m : Nat → Option CommentRow) (l : List CommentRow) :
    (tree_pass m l).1 = l.filter (fun c => decide (c.parent_id = none)) := by
  induction l with
  | nil => rfl
  | cons c cs ih =>
    cases hc : c.parent_id with
    | none => simp [tree_pass, hc, ih]
    | some pid =>
      cases hm : m pid with
      | none => simp [tree_pass, hc, hm, ih]
      | some parent => simp [tree_pass, hc, hm, ih]

/-- The attachments recorded by the second pass: one per comment whose
declared parent is found in the map. -/
theorem tree_pass_snd (m : Nat → Option CommentRow) (l : List CommentRow) :
    (tree_pass m l).2 = l.filterMap (fun c =>
      match c.parent_id with
      | none => none
      | some pid => (m pid).map (fun parent => (parent.id, c))) := by
  induction l with
  | nil => rfl
  | cons c cs ih =>
    cases hc : c.parent_id with
    | none => simp [tree_pass, hc, ih, List.filterMap_cons]
    | some pid =>
      cases hm : m pid with
      | none => simp [tree_pass, hc, hm, ih, List.filterMap_cons]
      | some parent => simp [tree_pass, hc, hm, ih, List.filterMap_cons]

/-- A hit in the `comment_map` dict is a comment of the input list bearing
the looked-up id. -/
theorem comment_map_mem {cs : List CommentRow} {p : Nat} {parent : CommentRow}
    (h : comment_map cs p = some parent) : parent ∈ cs ∧ parent.id = p := by
  unfold comment_map at h
  have hmem := List.mem_of_find?_eq_some h
  have hpred := List.find?_some h
  rw [List.mem_reverse] at hmem
  exact ⟨hmem, by simpa using hpred⟩

/-- C1 (counterexample): a single comment whose declared parent id 99 is
the id of no comment in the input is NOT in the returned root list —
`build_comment_tree` returns no roots and no attachments for it, so the
orphan is dropped from the output rather than promoted to a root. -/
theorem c1_orphan_promoted_cex :
    (⟨1, 1, some 99, 1, "hi", 0⟩ : CommentRow) ∈
      ([⟨1, 1, some 99, 1, "hi", 0⟩] : List CommentRow) ∧
    (⟨1, 1, some 99, 1, "hi", 0⟩ : CommentRow).parent_id = some 99 ∧
    (([⟨1, 1, some 99, 1, "hi", 0⟩] : List CommentRow).map
        (fun c => c.id)).contains 99 = false ∧
    (⟨1, 1, some 99, 1, "hi", 0⟩ : CommentRow) ∉
      (build_comment_tree [⟨1, 1, some 99, 1, "hi", 0⟩]).1 ∧
    (build_comment_tree [⟨1, 1, some 99, 1, "hi", 0⟩]).2 = [] := by
  refine ⟨by decide, by decide, by decide, ?_, by decide⟩
  decide

/-- C1 (amended): a comment whose declared parent id is not the id of any
comment in the input list is silently dropped by `build_comment_tree` —
it neither appears in the returned root list nor is attached to any
comment's reply list. -/
theorem c1_orphan_comment_dropped (cs : List CommentRow) (c : CommentRow) (p : Nat)
    (hc : c.parent_id = some p) (hp : ∀ c2 ∈ cs, c2.id ≠ p) :
    c ∉ (build_comment_tree cs).1 ∧
    ∀ pr ∈ (build_comment_tree cs).2, pr.2 ≠ c := by
  constructor
  · intro hmem
    rw [build_comment_tree, tree_pass_fst, List.mem_filter] at hmem
    rw [hc] at hmem
    simp at hmem
  · intro pr hpr heq
    rw [build_comment_tree, tree_pass_snd, List.mem_filterMap] at hpr
    obtain ⟨a, _, ha⟩ := hpr
    cases hpa : a.parent_id with
    | none => rw [hpa] at ha; simp at ha
    | some pid =>
      rw [hpa] at ha
      cases hm : comment_map cs pid with
      | none => simp [hm] at ha
      | some parent =>
        simp only [hm, Option.map_some', Option.some.injEq] at ha
        have ha2 : a = c := by rw [← heq, ← ha]
        rw [ha2, hc] at hpa
        cases hpa
        obtain ⟨hmem, hid⟩ := comment_map_mem hm
        exact hp parent hmem hid

/-- Witness for `c1_orphan_comment_dropped` at a concrete input: two
comments, the second declaring the missing parent 99. -/
theorem c1_orphan_comment_dropped_witness :
    (⟨7, 1, some 99, 1, "b", 0⟩ : CommentRow).parent_id = some 99 ∧
    (∀ c2 ∈ ([⟨2, 1, none, 1, "a", 0⟩, ⟨7, 1, some 99, 1, "b", 0⟩] : List CommentRow),
      c2.id ≠ 99) ∧
    ((⟨7, 1, some 99, 1, "b", 0⟩ : CommentRow) ∉
        (build_comment_tree [⟨2, 1, none, 1, "a", 0⟩, ⟨7, 1, some 99, 1, "b", 0⟩]).1 ∧
      ∀ pr ∈ (build_comment_tree
          [⟨2, 1, none, 1, "a", 0⟩, ⟨7, 1, some 99, 1, "b", 0⟩]).2, pr.2 ≠
        (⟨7, 1, some 99, 1, "b", 0⟩ : CommentRow)) :=
  ⟨by decide, by decide,
    c1_orphan_comment_dropped _ _ 99 (by decide) (by decide)⟩

/-! ### Theorems: authorization guard -/

/-- C2: every mutating action — like, unlike, create post, create comment,
on either target kind — checks the resolved actor before anything else:
when the authentication collaborator supplies no actor (`none`), the
action answers `unauthorized` and returns the store untouched, the check
sitting before the `transaction.atomic()` unit of work in the source. -/
theorem c2_no_actor_unauthorized (pk postId : Nat) (now : Int) (st : DBState)
    (content : String) (parent : Option Nat) :
    post_like none pk now st = (.unauthorized, st) ∧
    post_unlike none pk st = (.unauthorized, st) ∧
    comment_like none pk now st = (.unauthorized, st) ∧
    comment_unlike none pk st = (.unauthorized, st) ∧
    post_create none content st = (.unauthorized, st) ∧
    comment_create none postId parent content st = (.unauthorized, st) :=
  ⟨rfl, rfl, rfl, rfl, rfl, rfl⟩

/-! ### Supporting lemmas about the ORM primitives -/

/-- Whether the target row of a like/unlike exists. -/
def targetExists (st : DBState) (tt : TargetType) (pk : Nat) : Bool :=
  match tt with
  | .post => (getPost st pk).isSome
  | .comment => (getComment st pk).isSome

/-- Whether a `users` row with the given primary key exists. -/
def userExists (st : DBState) (uid : Nat) : Bool :=
  (st.users.find? (fun u => decide (u.id = uid))).isSome

theorem find?_key_map {α : Type} (key : α → Nat) (f : α → α)
    (hf : ∀ a, key (f a) = key a) (l : List α) (q : Nat) :
    (l.map f).find? (fun a => decide (key a = q)) =
      (l.find? (fun a => decide (key a = q))).map f := by
  rw [List.find?_map]
  have h : ((fun a => decide (key a = q)) ∘ f) = fun a => decide (key a = q) := by
    funext a
    simp [Function.comp, hf]
  rw [h]

@[simp] theorem users_updatePostLikes (st : DBState) (pk : Nat) (d : Int) :
    (updatePostLikes st pk d).users = st.users := rfl
@[simp] theorem comments_updatePostLikes (st : DBState) (pk : Nat) (d : Int) :
    (updatePostLikes st pk d).comments = st.comments := rfl
@[simp] theorem likes_updatePostLikes (st : DBState) (pk : Nat) (d : Int) :
    (updatePostLikes st pk d).likes = st.likes := rfl
@[simp] theorem karma_updatePostLikes (st : DBState) (pk : Nat) (d : Int) :
    (updatePostLikes st pk d).karma = st.karma := rfl

@[simp] theorem users_updateCommentLikes (st : DBState) (pk : Nat) (d : Int) :
    (updateCommentLikes st pk d).users = st.users := rfl
@[simp] theorem posts_updateCommentLikes (st : DBState) (pk : Nat) (d : Int) :
    (updateCommentLikes st pk d).posts = st.posts := rfl
@[simp] theorem likes_updateCommentLikes (st : DBState) (pk : Nat) (d : Int) :
    (updateCommentLikes st pk d).likes = st.likes := rfl
@[simp] theorem karma_updateCommentLikes (st : DBState) (pk : Nat) (d : Int) :
    (updateCommentLikes st pk d).karma = st.karma := rfl

@[simp] theorem posts_updateUserKarma (st : DBState) (uid d : Nat) :
    (updateUserKarma st uid d).posts = st.posts := rfl
@[simp] theorem comments_updateUserKarma (st : DBState) (uid d : Nat) :
    (updateUserKarma st uid d).comments = st.comments := rfl
@[simp] theorem likes_updateUserKarma (st : DBState) (uid d : Nat) :
    (updateUserKarma st uid d).likes = st.likes := rfl
@[simp] theorem karma_updateUserKarma (st : DBState) (uid d : Nat) :
    (updateUserKarma st uid d).karma = st.karma := rfl

@[simp] theorem getPost_updateCommentLikes (st : DBState) (pk : Nat) (d : Int) (q : Nat) :
    getPost (updateCommentLikes st pk d) q = getPost st q := rfl
@[simp] theorem getComment_updatePostLikes (st : DBState) (pk : Nat) (d : Int) (q : Nat) :
    getComment (updatePostLikes st pk d) q = getComment st q := rfl
@[simp] theorem getPost_updateUserKarma (st : DBState) (uid d : Nat) (q : Nat) :
    getPost (updateUserKarma st uid d) q = getPost st q := rfl
@[simp] theorem getComment_updateUserKarma (st : DBState) (uid d : Nat) (q : Nat) :
    getComment (updateUserKarma st uid d) q = getComment st q := rfl

/-- An `F('likes_count')` update on `posts` changes no key, so a primary
key fetch sees the incremented image of the previously fetched row. -/
theorem getPost_updatePostLikes (st : DBState) (pk : Nat) (d : Int) (q : Nat) :
    getPost (updatePostLikes st pk d) q =
      (getPost st q).map (fun p =>
        if p.id = pk then { p with likes_count := p.likes_count + d } else p) := by
  show (st.posts.map _).find? _ = _
  exact find?_key_map (fun p => p.id)
    (fun p => if p.id = pk then { p with likes_count := p.likes_count + d } else p)
    (fun p => by by_cases h : p.id = pk <;> simp [h]) st.posts q

theorem getComment_updateCommentLikes (st : DBState) (pk : Nat) (d : Int) (q : Nat) :
    getComment (updateCommentLikes st pk d) q =
      (getComment st q).map (fun c =>
        if c.id = pk then { c with likes_count := c.likes_count + d } else c) := by
  show (st.comments.map _).find? _ = _
  exact find?_key_map (fun c => c.id)
    (fun c => if c.id = pk then { c with likes_count := c.likes_count + d } else c)
    (fun c => by by_cases h : c.id = pk <;> simp [h]) st.comments q

/-- A fetched post bears the key it was fetched by. -/
theorem getPost_id {st : DBState} {pk : Nat} {p : PostRow}
    (h : getPost st pk = some p) : p.id = pk := by
  simpa using List.find?_some h

theorem getComment_id {st : DBState} {pk : Nat} {c : CommentRow}
    (h : getComment st pk = some c) : c.id = pk := by
  simpa using List.find?_some h

/-- Explicit shape of the success branch of `PostViewSet.like`: the `Like`
row and the +5 `KarmaTransaction` are appended, `likes_count` and the
author's `total_karma` are incremented in place, and the response carries
the refreshed count. -/
theorem post_like_success_eq (u pk : Nat) (now : Int) (st : DBState)
    (post : PostRow) (hpost : getPost st pk = some post)
    (hnew : likeExists st u .post pk = false) :
    post_like (some u) pk now st =
      (.success (post.likes_count + 1) 5,
       { users := st.users.map (fun usr =>
           if usr.id = post.author_id
           then { usr with total_karma := usr.total_karma + 5 } else usr),
         posts := st.posts.map (fun p =>
           if p.id = pk then { p with likes_count := p.likes_count + 1 } else p),
         comments := st.comments,
         likes := st.likes ++ [⟨u, .post, pk⟩],
         karma := st.karma ++ [⟨post.author_id, 5, .post_like, pk, some u, now⟩] }) := by
  have hid : post.id = pk := getPost_id hpost
  simp only [post_like, hpost, hid, hnew, Bool.false_eq_true, if_false]
  simp only [targetLikesCount, getPost_updateUserKarma]
  have hfind : (st.posts.map (fun p =>
        if p.id = pk then { p with likes_count := p.likes_count + 1 } else p)).find?
          (fun p => decide (p.id = pk))
      = some { post with likes_count := post.likes_count + 1 } := by
    have := getPost_updatePostLikes st pk 1 pk
    simp only [getPost, updatePostLikes] at this
    rw [this]
    show ((getPost st pk).map _) = _
    rw [hpost]
    simp [hid]
  simp only [updatePostLikes, updateUserKarma, getPost]
  simp only [hfind]
  simp

/-- Explicit shape of the success branch of `CommentViewSet.like`. -/
theorem comment_like_success_eq (u pk : Nat) (now : Int) (st : DBState)
    (comment : CommentRow) (hcomment : getComment st pk = some comment)
    (hnew : likeExists st u .comment pk = false) :
    comment_like (some u) pk now st =
      (.success (comment.likes_count + 1) 1,
       { users := st.users.map (fun usr =>
           if usr.id = comment.author_id
           then { usr with total_karma := usr.total_karma + 1 } else usr),
         posts := st.posts,
         comments := st.comments.map (fun c =>
           if c.id = pk then { c with likes_count := c.likes_count + 1 } else c),
         likes := st.likes ++ [⟨u, .comment, pk⟩],
         karma := st.karma ++ [⟨comment.author_id, 1, .comment_like, pk, some u, now⟩] }) := by
  have hid : comment.id = pk := getComment_id hcomment
  simp only [comment_like, hcomment, hid, hnew, Bool.false_eq_true, if_false]
  simp only [targetLikesCount, getComment_updateUserKarma]
  have hfind : (st.comments.map (fun c =>
        if c.id = pk then { c with likes_count := c.likes_count + 1 } else c)).find?
          (fun c => decide (c.id = pk))
      = some { comment with likes_count := comment.likes_count + 1 } := by
    have := getComment_updateCommentLikes st pk 1 pk
    simp only [getComment, updateCommentLikes] at this
    rw [this]
    show ((getComment st pk).map _) = _
    rw [hcomment]
    simp [hid]
  simp only [updateCommentLikes, updateUserKarma, getComment]
  simp only [hfind]
  simp

/-- The `AlreadyLiked` branch of `PostViewSet.like` has no effects. -/
theorem post_like_already (u pk : Nat) (now : Int) (st : DBState)
    (post : PostRow) (hpost : getPost st pk = some post)
    (hl : likeExists st u .post pk = true) :
    post_like (some u) pk now st = (.alreadyLiked, st) := by
  have hid : post.id = pk := getPost_id hpost
  simp [post_like, hpost, hid, hl]

/-- The `AlreadyLiked` branch of `CommentViewSet.like` has no effects. -/
theorem comment_like_already (u pk : Nat) (now : Int) (st : DBState)
    (comment : CommentRow) (hcomment : getComment st pk = some comment)
    (hl : likeExists st u .comment pk = true) :
    comment_like (some u) pk now st = (.alreadyLiked, st) := by
  have hid : comment.id = pk := getComment_id hcomment
  simp [comment_like, hcomment, hid, hl]

/-- Explicit shape of the success branch of `PostViewSet.unlike`: the
matched `Like` row is deleted and `likes_count` decremented; `karma` and
`users` are untouched. -/
theorem post_unlike_success_eq (u pk : Nat) (st : DBState)
    (post : PostRow) (hpost : getPost st pk = some post) (lk : LikeRow)
    (hfound : st.likes.find? (fun l =>
        decide (l.user_id = u ∧ l.target_type = .post ∧ l.target_id = pk)) = some lk) :
    post_unlike (some u) pk st =
      (.success (post.likes_count + (-1)),
       { users := st.users,
         posts := st.posts.map (fun p =>
           if p.id = pk then { p with likes_count := p.likes_count + (-1) } else p),
         comments := st.comments,
         likes := st.likes.eraseP (fun l =>
           decide (l.user_id = u ∧ l.target_type = .post ∧ l.target_id = pk)),
         karma := st.karma }) := by
  have hid : post.id = pk := getPost_id hpost
  simp only [post_unlike, hpost, hid, hfound]
  simp only [targetLikesCount]
  have hfind : (st.posts.map (fun p =>
        if p.id = pk then { p with likes_count := p.likes_count + (-1) } else p)).find?
          (fun p => decide (p.id = pk))
      = some { post with likes_count := post.likes_count + (-1) } := by
    have := getPost_updatePostLikes st pk (-1) pk
    simp only [getPost, updatePostLikes] at this
    rw [this]
    show ((getPost st pk).map _) = _
    rw [hpost]
    simp [hid]
  simp only [updatePostLikes, getPost]
  simp only [hfind]
  simp

/-- Explicit shape of the success branch of `CommentViewSet.unlike`. -/
theorem comment_unlike_success_eq (u pk : Nat) (st : DBState)
    (comment : CommentRow) (hcomment : getComment st pk = some comment) (lk : LikeRow)
    (hfound : st.likes.find? (fun l =>
        decide (l.user_id = u ∧ l.target_type = .comment ∧ l.target_id = pk)) = some lk) :
    comment_unlike (some u) pk st =
      (.success (comment.likes_count + (-1)),
       { users := st.users,
         posts := st.posts,
         comments := st.comments.map (fun c =>
           if c.id = pk then { c with likes_count := c.likes_count + (-1) } else c),
         likes := st.likes.eraseP (fun l =>
           decide (l.user_id = u ∧ l.target_type = .comment ∧ l.target_id = pk)),
         karma := st.karma }) := by
  have hid : comment.id = pk := getComment_id hcomment
  simp only [comment_unlike, hcomment, hid, hfound]
  simp only [targetLikesCount]
  have hfind : (st.comments.map (fun c =>
        if c.id = pk then { c with likes_count := c.likes_count + (-1) } else c)).find?
          (fun c => decide (c.id = pk))
      = some { comment with likes_count := comment.likes_count + (-1) } := by
    have := getComment_updateCommentLikes st pk (-1) pk
    simp only [getComment, updateCommentLikes] at this
    rw [this]
    show ((getComment st pk).map _) = _
    rw [hcomment]
    simp [hid]
  simp only [updateCommentLikes, getComment]
  simp only [hfind]
  simp

/-- Either `PostViewSet.like` fails with no effect, or its success
hypotheses held in the pre-state. -/
theorem post_like_spec (u' : Option Nat) (pk : Nat) (now : Int) (st : DBState) :
    ((post_like u' pk now st).1.isSuccess = false ∧ (post_like u' pk now st).2 = st) ∨
    (∃ u post, u' = some u ∧ getPost st pk = some post ∧
      likeExists st u .post pk = false ∧ (post_like u' pk now st).1.isSuccess = true) := by
  cases u' with
  | none => exact Or.inl ⟨rfl, rfl⟩
  | some u =>
    cases hp : getPost st pk with
    | none => exact Or.inl (by simp [post_like, hp, LikeResult.isSuccess])
    | some post =>
      have hid : post.id = pk := getPost_id hp
      by_cases hl : likeExists st u .post pk = true
      · left
        rw [post_like_already u pk now st post hp hl]
        exact ⟨rfl, rfl⟩
      · right
        refine ⟨u, post, rfl, rfl, by simpa using hl, ?_⟩
        rw [post_like_success_eq u pk now st post hp (by simpa using hl)]
        rfl

/-- Either `CommentViewSet.like` fails with no effect, or its success
hypotheses held in the pre-state. -/
theorem comment_like_spec (u' : Option Nat) (pk : Nat) (now : Int) (st : DBState) :
    ((comment_like u' pk now st).1.isSuccess = false ∧ (comment_like u' pk now st).2 = st) ∨
    (∃ u comment, u' = some u ∧ getComment st pk = some comment ∧
      likeExists st u .comment pk = false ∧ (comment_like u' pk now st).1.isSuccess = true) := by
  cases u' with
  | none => exact Or.inl ⟨rfl, rfl⟩
  | some u =>
    cases hp : getComment st pk with
    | none => exact Or.inl (by simp [comment_like, hp, LikeResult.isSuccess])
    | some comment =>
      have hid : comment.id = pk := getComment_id hp
      by_cases hl : likeExists st u .comment pk = true
      · left
        rw [comment_like_already u pk now st comment hp hl]
        exact ⟨rfl, rfl⟩
      · right
        refine ⟨u, comment, rfl, rfl, by simpa using hl, ?_⟩
        rw [comment_like_success_eq u pk now st comment hp (by simpa using hl)]
        rfl

/-- Either `PostViewSet.unlike` fails with no effect, or its success
hypotheses held in the pre-state. -/
theorem post_unlike_spec (u' : Option Nat) (pk : Nat) (st : DBState) :
    ((post_unlike u' pk st).1.isSuccess = false ∧ (post_unlike u' pk st).2 = st) ∨
    (∃ u post lk, u' = some u ∧ getPost st pk = some post ∧
      st.likes.find? (fun l =>
        decide (l.user_id = u ∧ l.target_type = .post ∧ l.target_id = pk)) = some lk ∧
      (post_unlike u' pk st).1.isSuccess = true) := by
  cases u' with
  | none => exact Or.inl ⟨rfl, rfl⟩
  | some u =>
    cases hp : getPost st pk with
    | none => exact Or.inl (by simp [post_unlike, hp, UnlikeResult.isSuccess])
    | some post =>
      have hid : post.id = pk := getPost_id hp
      cases hf : st.likes.find? (fun l =>
          decide (l.user_id = u ∧ l.target_type = .post ∧ l.target_id = pk)) with
      | none =>
        left
        have : post_unlike (some u) pk st = (.likeNotFound, st) := by
          simp only [post_unlike, hp, hid, hf]
        rw [this]
        exact ⟨rfl, rfl⟩
      | some lk =>
        right
        refine ⟨u, post, lk, rfl, rfl, hf, ?_⟩
        rw [post_unlike_success_eq u pk st post hp lk hf]
        rfl

/-- Either `CommentViewSet.unlike` fails with no effect, or its success
hypotheses held in the pre-state. -/
theorem comment_unlike_spec (u' : Option Nat) (pk : Nat) (st : DBState) :
    ((comment_unlike u' pk st).1.isSuccess = false ∧ (comment_unlike u' pk st).2 = st) ∨
    (∃ u comment lk, u' = some u ∧ getComment st pk = some comment ∧
      st.likes.find? (fun l =>
        decide (l.user_id = u ∧ l.target_type = .comment ∧ l.target_id = pk)) = some lk ∧
      (comment_unlike u' pk st).1.isSuccess = true) := by
  cases u' with
  | none => exact Or.inl ⟨rfl, rfl⟩
  | some u =>
    cases hp : getComment st pk with
    | none => exact Or.inl (by simp [comment_unlike, hp, UnlikeResult.isSuccess])
    | some comment =>
      have hid : comment.id = pk := getComment_id hp
      cases hf : st.likes.find? (fun l =>
          decide (l.user_id = u ∧ l.target_type = .comment ∧ l.target_id = pk)) with
      | none =>
        left
        have : comment_unlike (some u) pk st = (.likeNotFound, st) := by
          simp only [comment_unlike, hp, hid, hf]
        rw [this]
        exact ⟨rfl, rfl⟩
      | some lk =>
        right
        refine ⟨u, comment, lk, rfl, rfl, hf, ?_⟩
        rw [comment_unlike_success_eq u pk st comment hp lk hf]
        rfl

/-- `PostViewSet.create` either rejects with no effect or appends one post
row with a fresh id and `likes_count = 0`. -/
theorem post_create_spec (u' : Option Nat) (content : String) (st : DBState) :
    (post_create u' content st).2 = st ∨
    (∃ u, u' = some u ∧ (post_create u' content st).2 =
      { st with posts := st.posts ++ [⟨nextPostId st, u, content.trim, 0⟩] }) := by
  cases u' with
  | none => exact Or.inl rfl
  | some u =>
    simp only [post_create]
    by_cases hv : content.trim.length < 1 ∨ 2000 < content.length
    · rw [if_pos hv]
      exact Or.inl rfl
    · rw [if_neg hv]
      exact Or.inr ⟨u, rfl, rfl⟩

/-- `CommentViewSet.create` either rejects with no effect or appends one
comment row with a fresh id and `likes_count = 0`. -/
theorem comment_create_spec (u' : Option Nat) (postId : Nat) (parent : Option Nat)
    (content : String) (st : DBState) :
    (comment_create u' postId parent content st).2 = st ∨
    (∃ u, u' = some u ∧ (comment_create u' postId parent content st).2 =
      { st with comments :=
        st.comments ++ [⟨nextCommentId st, postId, parent, u, content.trim, 0⟩] }) := by
  cases u' with
  | none => exact Or.inl rfl
  | some u =>
    simp only [comment_create]
    by_cases h1 : (getPost st postId).isNone = true
    · rw [if_pos h1]
      exact Or.inl rfl
    · rw [if_neg h1]
      by_cases h2 : content.trim.length < 1 ∨ 1000 < content.length
      · rw [if_pos h2]
        exact Or.inl rfl
      · rw [if_neg h2]
        cases parent with
        | none => exact Or.inr ⟨u, rfl, rfl⟩
        | some pid =>
          dsimp only
          cases hc : getComment st pid with
          | none => exact Or.inl rfl
          | some par =>
            dsimp only
            by_cases h3 : par.post_id = postId
            · rw [if_pos h3]
              exact Or.inr ⟨u, rfl, rfl⟩
            · rw [if_neg h3]
              exact Or.inl rfl

theorem find?_posts_update (posts : List PostRow) (pk : Nat) (d : Int) (tid : Nat) :
    (posts.map (fun p =>
        if p.id = pk then { p with likes_count := p.likes_count + d } else p)).find?
      (fun p => decide (p.id = tid)) =
    (posts.find? (fun p => decide (p.id = tid))).map
      (fun p => if p.id = pk then { p with likes_count := p.likes_count + d } else p) :=
  find?_key_map (fun p => p.id)
    (fun p => if p.id = pk then { p with likes_count := p.likes_count + d } else p)
    (fun p => by by_cases h : p.id = pk <;> simp [h]) posts tid

theorem find?_comments_update (comments : List CommentRow) (pk : Nat) (d : Int) (tid : Nat) :
    (comments.map (fun c =>
        if c.id = pk then { c with likes_count := c.likes_count + d } else c)).find?
      (fun c => decide (c.id = tid)) =
    (comments.find? (fun c => decide (c.id = tid))).map
      (fun c => if c.id = pk then { c with likes_count := c.likes_count + d } else c) :=
  find?_key_map (fun c => c.id)
    (fun c => if c.id = pk then { c with likes_count := c.likes_count + d } else c)
    (fun c => by by_cases h : c.id = pk <;> simp [h]) comments tid

theorem find?_users_update (users : List UserRow) (uid d q : Nat) :
    (users.map (fun x =>
        if x.id = uid then { x with total_karma := x.total_karma + d } else x)).find?
      (fun x => decide (x.id = q)) =
    (users.find? (fun x => decide (x.id = q))).map
      (fun x => if x.id = uid then { x with total_karma := x.total_karma + d } else x) :=
  find?_key_map (fun x => x.id)
    (fun x => if x.id = uid then { x with total_karma := x.total_karma + d } else x)
    (fun x => by by_cases h : x.id = uid <;> simp [h]) users q

/-! ### Theorems: like idempotence -/

/-- C3: from a state in which the actor has not yet liked the existing
target, the first `like` succeeds and the second answers `AlreadyLiked`;
the second outcome changes no state at all, and the target's
`likes_count` moves by exactly 1 across the two calls. -/
theorem c3_like_twice_idempotent (u : Nat) (tt : TargetType) (pk : Nat)
    (now now2 : Int) (st : DBState)
    (htgt : targetExists st tt pk = true)
    (hnew : likeExists st u tt pk = false) :
    (like (some u) tt pk now st).1.isSuccess = true ∧
    (like (some u) tt pk now2 (like (some u) tt pk now st).2).1 = .alreadyLiked ∧
    (like (some u) tt pk now2 (like (some u) tt pk now st).2).2 =
      (like (some u) tt pk now st).2 ∧
    targetLikesCount (like (some u) tt pk now st).2 tt pk =
      targetLikesCount st tt pk + 1 := by
  cases tt with
  | post =>
    obtain ⟨post, hp⟩ := Option.isSome_iff_exists.mp (by simpa [targetExists] using htgt)
    have hid : post.id = pk := getPost_id hp
    simp only [like]
    rw [post_like_success_eq u pk now st post hp hnew]
    set st1 : DBState :=
      { users := st.users.map (fun usr =>
          if usr.id = post.author_id
          then { usr with total_karma := usr.total_karma + 5 } else usr),
        posts := st.posts.map (fun p =>
          if p.id = pk then { p with likes_count := p.likes_count + 1 } else p),
        comments := st.comments,
        likes := st.likes ++ [⟨u, .post, pk⟩],
        karma := st.karma ++ [⟨post.author_id, 5, .post_like, pk, some u, now⟩] }
      with hst1
    have hgp1 : getPost st1 pk = some { post with likes_count := post.likes_count + 1 } := by
      show (st.posts.map _).find? _ = _
      rw [find?_posts_update]
      show ((getPost st pk).map _) = _
      rw [hp]
      simp [hid]
    have hle1 : likeExists st1 u .post pk = true := by
      simp [likeExists, hst1, List.any_append]
    rw [post_like_already u pk now2 st1 _ hgp1 hle1]
    refine ⟨rfl, rfl, rfl, ?_⟩
    simp only [targetLikesCount, hgp1, hp]
    simp
  | comment =>
    obtain ⟨comment, hp⟩ :=
      Option.isSome_iff_exists.mp (by simpa [targetExists] using htgt)
    have hid : comment.id = pk := getComment_id hp
    simp only [like]
    rw [comment_like_success_eq u pk now st comment hp hnew]
    set st1 : DBState :=
      { users := st.users.map (fun usr =>
          if usr.id = comment.author_id
          then { usr with total_karma := usr.total_karma + 1 } else usr),
        posts := st.posts,
        comments := st.comments.map (fun c =>
          if c.id = pk then { c with likes_count := c.likes_count + 1 } else c),
        likes := st.likes ++ [⟨u, .comment, pk⟩],
        karma := st.karma ++ [⟨comment.author_id, 1, .comment_like, pk, some u, now⟩] }
      with hst1
    have hgc1 : getComment st1 pk =
        some { comment with likes_count := comment.likes_count + 1 } := by
      show (st.comments.map _).find? _ = _
      rw [find?_comments_update]
      show ((getComment st pk).map _) = _
      rw [hp]
      simp [hid]
    have hle1 : likeExists st1 u .comment pk = true := by
      simp [likeExists, hst1, List.any_append]
    rw [comment_like_already u pk now2 st1 _ hgc1 hle1]
    refine ⟨rfl, rfl, rfl, ?_⟩
    simp only [targetLikesCount, hgc1, hp]
    simp

/-- A small concrete store shared by the witnesses: two users, one post
authored by user 2, one comment on it, no likes yet. -/
def sampleState : DBState :=
  { users := [⟨1, 0⟩, ⟨2, 0⟩],
    posts := [⟨10, 2, "hello", 0⟩],
    comments := [⟨20, 10, none, 2, "first", 0⟩],
    likes := [],
    karma := [] }

/-- Witness for `c3_like_twice_idempotent`: user 1 likes post 10 twice. -/
theorem c3_like_twice_idempotent_witness :
    targetExists sampleState .post 10 = true ∧
    likeExists sampleState 1 .post 10 = false ∧
    ((like (some 1) .post 10 100 sampleState).1.isSuccess = true ∧
      (like (some 1) .post 10 200 (like (some 1) .post 10 100 sampleState).2).1 =
        .alreadyLiked ∧
      (like (some 1) .post 10 200 (like (some 1) .post 10 100 sampleState).2).2 =
        (like (some 1) .post 10 100 sampleState).2 ∧
      targetLikesCount (like (some 1) .post 10 100 sampleState).2 .post 10 =
        targetLikesCount sampleState .post 10 + 1) :=
  ⟨by decide, by decide,
    c3_like_twice_idempotent 1 .post 10 100 200 sampleState (by decide) (by decide)⟩

theorem find?_users_total (users : List UserRow) (a d : Nat) (row : UserRow)
    (h : users.find? (fun x => decide (x.id = a)) = some row) :
    (users.map (fun x =>
        if x.id = a then { x with total_karma := x.total_karma + d } else x)).find?
      (fun x => decide (x.id = a)) =
      some { row with total_karma := row.total_karma + d } := by
  rw [find?_users_update, h]
  have hid : row.id = a := by simpa using List.find?_some h
  simp [hid]

/-! ### Theorems: karma awards -/

/-- C4: a successful like appends exactly one `KarmaTransaction` crediting
the target's author — amount +5 with reason `post_like` for a post, +1
with reason `comment_like` for a comment — recording the liker, increments
the author's cached `total_karma` by the same amount (the author's user
row existing by referential integrity), and the response reports the new
`likes_count` together with the karma amount awarded. -/
theorem c4_like_awards_karma (u : Nat) (tt : TargetType) (pk : Nat) (now : Int)
    (st : DBState) (n k : Int) (st' : DBState)
    (h : like (some u) tt pk now st = (.success n k, st'))
    (hfk : ∀ a, targetAuthor st tt pk = some a → userExists st a = true) :
    ∃ a, targetAuthor st tt pk = some a ∧
      (tt = .post →
        k = 5 ∧
        st'.karma = st.karma ++ [⟨a, 5, .post_like, pk, some u, now⟩] ∧
        userTotalKarma st' a = userTotalKarma st a + 5) ∧
      (tt = .comment →
        k = 1 ∧
        st'.karma = st.karma ++ [⟨a, 1, .comment_like, pk, some u, now⟩] ∧
        userTotalKarma st' a = userTotalKarma st a + 1) ∧
      n = targetLikesCount st' tt pk := by
  cases tt with
  | post =>
    simp only [like] at h
    rcases post_like_spec (some u) pk now st with ⟨hfail, _⟩ | ⟨u2, post, hu2, hp, hl, _⟩
    · rw [h] at hfail
      simp [LikeResult.isSuccess] at hfail
    · have hu : u2 = u := by
        injection hu2 with h2
        exact h2.symm
      rw [hu] at hl
      have heq := post_like_success_eq u pk now st post hp hl
      rw [h] at heq
      injection heq with hres hst
      injection hres with hn hk
      have ha : targetAuthor st .post pk = some post.author_id := by
        simp [targetAuthor, hp]
      refine ⟨post.author_id, ha, fun _ => ⟨hk, ?_, ?_⟩, by simp, ?_⟩
      · rw [hst]
      · rw [hst]
        obtain ⟨row, hrow⟩ := Option.isSome_iff_exists.mp
          (show (st.users.find? (fun x => decide (x.id = post.author_id))).isSome = true
            from hfk post.author_id ha)
        show ((List.find? _ _).map _).getD 0 = _
        rw [find?_users_total st.users post.author_id 5 row hrow]
        simp [userTotalKarma, hrow]
      · have hid : post.id = pk := getPost_id hp
        have hgp1 : getPost st' pk =
            some { post with likes_count := post.likes_count + 1 } := by
          rw [hst]
          show (st.posts.map _).find? _ = _
          rw [find?_posts_update]
          show ((getPost st pk).map _) = _
          rw [hp]
          simp [hid]
        simp [targetLikesCount, hgp1, hn]
  | comment =>
    simp only [like] at h
    rcases comment_like_spec (some u) pk now st with ⟨hfail, _⟩ | ⟨u2, comment, hu2, hp, hl, _⟩
    · rw [h] at hfail
      simp [LikeResult.isSuccess] at hfail
    · have hu : u2 = u := by
        injection hu2 with h2
        exact h2.symm
      rw [hu] at hl
      have heq := comment_like_success_eq u pk now st comment hp hl
      rw [h] at heq
      injection heq with hres hst
      injection hres with hn hk
      have ha : targetAuthor st .comment pk = some comment.author_id := by
        simp [targetAuthor, hp]
      refine ⟨comment.author_id, ha, by simp, fun _ => ⟨hk, ?_, ?_⟩, ?_⟩
      · rw [hst]
      · rw [hst]
        obtain ⟨row, hrow⟩ := Option.isSome_iff_exists.mp
          (show (st.users.find? (fun x => decide (x.id = comment.author_id))).isSome = true
            from hfk comment.author_id ha)
        show ((List.find? _ _).map _).getD 0 = _
        rw [find?_users_total st.users comment.author_id 1 row hrow]
        simp [userTotalKarma, hrow]
      · have hid : comment.id = pk := getComment_id hp
        have hgc1 : getComment st' pk =
            some { comment with likes_count := comment.likes_count + 1 } := by
          rw [hst]
          show (st.comments.map _).find? _ = _
          rw [find?_comments_update]
          show ((getComment st pk).map _) = _
          rw [hp]
          simp [hid]
        simp [targetLikesCount, hgc1, hn]

/-- Witness for `c4_like_awards_karma`: user 1 likes post 10 of
`sampleState`, crediting author 2 with +5. -/
theorem c4_like_awards_karma_witness :
    like (some 1) .post 10 100 sampleState =
      (.success 1 5, (like (some 1) .post 10 100 sampleState).2) ∧
    (∀ a, targetAuthor sampleState .post 10 = some a →
      userExists sampleState a = true) ∧
    (∃ a, targetAuthor sampleState .post 10 = some a ∧
      (TargetType.post = .post →
        (5 : Int) = 5 ∧
        ((like (some 1) .post 10 100 sampleState).2).karma =
          sampleState.karma ++ [⟨a, 5, .post_like, 10, some 1, 100⟩] ∧
        userTotalKarma (like (some 1) .post 10 100 sampleState).2 a =
          userTotalKarma sampleState a + 5) ∧
      (TargetType.post = .comment →
        (5 : Int) = 1 ∧
        ((like (some 1) .post 10 100 sampleState).2).karma =
          sampleState.karma ++ [⟨a, 1, .comment_like, 10, some 1, 100⟩] ∧
        userTotalKarma (like (some 1) .post 10 100 sampleState).2 a =
          userTotalKarma sampleState a + 1) ∧
      (1 : Int) = targetLikesCount (like (some 1) .post 10 100 sampleState).2 .post 10) := by
  have hfk : ∀ a, targetAuthor sampleState .post 10 = some a →
      userExists sampleState a = true := by
    intro a ha
    have h2 : targetAuthor sampleState .post 10 = some 2 := by decide
    rw [h2] at ha
    injection ha with h3
    rw [← h3]
    decide
  exact ⟨by decide, hfk,
    c4_like_awards_karma 1 .post 10 100 sampleState 1 5
      (like (some 1) .post 10 100 sampleState).2 (by decide) hfk⟩

/-- Sum of `KarmaTransaction` amounts credited to one recipient. -/
def karmaSumFor (st : DBState) (a : Nat) : Int :=
  ((st.karma.filter (fun t => decide (t.user_id = a))).map (fun t => t.amount)).sum

/-! ### Theorems: unlike never reverses karma -/

/-- C5: a successful unlike deletes the matched `Like` row and decrements
the target's `likes_count` by 1, but leaves the `KarmaTransaction` ledger
and the `users` table (hence every recipient's cached and summed karma)
untouched; in particular after like followed by unlike the recipient's
summed karma equals the sum after the like alone. -/
theorem c5_unlike_no_karma_reversal (u : Nat) (tt : TargetType) (pk : Nat)
    (st : DBState) (n : Int) (st' : DBState)
    (h : unlike (some u) tt pk st = (.success n, st')) :
    st'.karma = st.karma ∧
    st'.users = st.users ∧
    st'.likes = st.likes.eraseP (fun l =>
      decide (l.user_id = u ∧ l.target_type = tt ∧ l.target_id = pk)) ∧
    targetLikesCount st' tt pk = targetLikesCount st tt pk - 1 ∧
    (∀ a, karmaSumFor st' a = karmaSumFor st a) := by
  cases tt with
  | post =>
    simp only [unlike] at h
    rcases post_unlike_spec (some u) pk st with ⟨hfail, _⟩ | ⟨u2, post, lk, hu2, hp, hf, _⟩
    · rw [h] at hfail
      simp [UnlikeResult.isSuccess] at hfail
    · have hu : u2 = u := by
        injection hu2 with h2
        exact h2.symm
      rw [hu] at hf
      have heq := post_unlike_success_eq u pk st post hp lk hf
      rw [h] at heq
      injection heq with hres hst
      have hid : post.id = pk := getPost_id hp
      have hgp1 : getPost st' pk =
          some { post with likes_count := post.likes_count + (-1) } := by
        rw [hst]
        show (st.posts.map _).find? _ = _
        rw [find?_posts_update]
        show ((getPost st pk).map _) = _
        rw [hp]
        simp [hid]
      refine ⟨by rw [hst], by rw [hst], by rw [hst], ?_, ?_⟩
      · simp only [targetLikesCount, hgp1, hp]
        simp
        omega
      · intro a
        rw [karmaSumFor, karmaSumFor, show st'.karma = st.karma from by rw [hst]]
  | comment =>
    simp only [unlike] at h
    rcases comment_unlike_spec (some u) pk st with ⟨hfail, _⟩ | ⟨u2, comment, lk, hu2, hp, hf, _⟩
    · rw [h] at hfail
      simp [UnlikeResult.isSuccess] at hfail
    · have hu : u2 = u := by
        injection hu2 with h2
        exact h2.symm
      rw [hu] at hf
      have heq := comment_unlike_success_eq u pk st comment hp lk hf
      rw [h] at heq
      injection heq with hres hst
      have hid : comment.id = pk := getComment_id hp
      have hgc1 : getComment st' pk =
          some { comment with likes_count := comment.likes_count + (-1) } := by
        rw [hst]
        show (st.comments.map _).find? _ = _
        rw [find?_comments_update]
        show ((getComment st pk).map _) = _
        rw [hp]
        simp [hid]
      refine ⟨by rw [hst], by rw [hst], by rw [hst], ?_, ?_⟩
      · simp only [targetLikesCount, hgc1, hp]
        simp
        omega
      · intro a
        rw [karmaSumFor, karmaSumFor, show st'.karma = st.karma from by rw [hst]]

/-- A concrete store in which user 1 already likes post 10 and the +5
karma for it has been granted to author 2. -/
def sampleLikedState : DBState :=
  { users := [⟨1, 0⟩, ⟨2, 5⟩],
    posts := [⟨10, 2, "hello", 1⟩],
    comments := [⟨20, 10, none, 2, "first", 0⟩],
    likes := [⟨1, .post, 10⟩],
    karma := [⟨2, 5, .post_like, 10, some 1, 100⟩] }

/-- Witness for `c5_unlike_no_karma_reversal`: user 1 unlikes post 10 of
`sampleLikedState`. -/
theorem c5_unlike_no_karma_reversal_witness :
    unlike (some 1) .post 10 sampleLikedState =
      (.success 0, (unlike (some 1) .post 10 sampleLikedState).2) ∧
    (((unlike (some 1) .post 10 sampleLikedState).2).karma = sampleLikedState.karma ∧
      ((unlike (some 1) .post 10 sampleLikedState).2).users = sampleLikedState.users ∧
      ((unlike (some 1) .post 10 sampleLikedState).2).likes =
        sampleLikedState.likes.eraseP (fun l =>
          decide (l.user_id = 1 ∧ l.target_type = .post ∧ l.target_id = 10)) ∧
      targetLikesCount (unlike (some 1) .post 10 sampleLikedState).2 .post 10 =
        targetLikesCount sampleLikedState .post 10 - 1 ∧
      (∀ a, karmaSumFor (unlike (some 1) .post 10 sampleLikedState).2 a =
        karmaSumFor sampleLikedState a)) :=
  ⟨by decide,
    c5_unlike_no_karma_reversal 1 .post 10 sampleLikedState 0
      (unlike (some 1) .post 10 sampleLikedState).2 (by decide)⟩

/-! ### Supporting lemmas for the counter-conservation invariant -/

theorem countP_eraseP_found {α : Type} (p q : α → Bool) (l : List α) (a : α)
    (hfind : l.find? q = some a) (himp : ∀ x, q x = true → p x = true) :
    (l.eraseP q).countP p + 1 = l.countP p := by
  induction l with
  | nil => simp at hfind
  | cons x xs ih =>
    cases hqx : q x with
    | true =>
      rw [List.eraseP_cons, hqx]
      simp [List.countP_cons, himp x hqx]
    | false =>
      have hfind2 : xs.find? q = some a := by
        rwa [List.find?_cons_of_neg] at hfind
        simp [hqx]
      have ih2 := ih hfind2
      rw [List.eraseP_cons, hqx]
      simp only [cond_false, List.countP_cons]
      omega

theorem countP_eraseP_not {α : Type} (p q : α → Bool) (l : List α)
    (himp : ∀ x, q x = true → p x = false) :
    (l.eraseP q).countP p = l.countP p := by
  induction l with
  | nil => rfl
  | cons x xs ih =>
    cases hqx : q x with
    | true =>
      rw [List.eraseP_cons, hqx]
      simp [List.countP_cons, himp x hqx]
    | false =>
      rw [List.eraseP_cons, hqx]
      simp only [cond_false, List.countP_cons, ih]

/-- An in-place `likes_count` update on `posts` moves the fetched target's
count by `d` and nothing else. -/
theorem targetLikesCount_posts_update (st st' : DBState) (pk : Nat) (d : Int)
    (post : PostRow) (hp : getPost st pk = some post)
    (hposts : st'.posts = st.posts.map (fun p =>
      if p.id = pk then { p with likes_count := p.likes_count + d } else p))
    (hcom : st'.comments = st.comments) :
    (∀ tid, tid ≠ pk → targetLikesCount st' .post tid = targetLikesCount st .post tid) ∧
    targetLikesCount st' .post pk = post.likes_count + d ∧
    (∀ tid, targetLikesCount st' .comment tid = targetLikesCount st .comment tid) := by
  refine ⟨?_, ?_, ?_⟩
  · intro tid hne
    simp only [targetLikesCount, getPost]
    rw [hposts, find?_posts_update]
    cases hq : st.posts.find? (fun p => decide (p.id = tid)) with
    | none => simp
    | some p =>
      have hpid : p.id = tid := by simpa using List.find?_some hq
      simp [hpid, hne]
  · simp only [targetLikesCount, getPost]
    rw [hposts, find?_posts_update]
    have : st.posts.find? (fun p => decide (p.id = pk)) = some post := hp
    rw [this]
    simp [getPost_id hp]
  · intro tid
    simp only [targetLikesCount, getComment]
    rw [hcom]

/-- An in-place `likes_count` update on `comments`, mirrored. -/
theorem targetLikesCount_comments_update (st st' : DBState) (pk : Nat) (d : Int)
    (comment : CommentRow) (hc : getComment st pk = some comment)
    (hcomments : st'.comments = st.comments.map (fun c =>
      if c.id = pk then { c with likes_count := c.likes_count + d } else c))
    (hposts : st'.posts = st.posts) :
    (∀ tid, tid ≠ pk →
      targetLikesCount st' .comment tid = targetLikesCount st .comment tid) ∧
    targetLikesCount st' .comment pk = comment.likes_count + d ∧
    (∀ tid, targetLikesCount st' .post tid = targetLikesCount st .post tid) := by
  refine ⟨?_, ?_, ?_⟩
  · intro tid hne
    simp only [targetLikesCount, getComment]
    rw [hcomments, find?_comments_update]
    cases hq : st.comments.find? (fun c => decide (c.id = tid)) with
    | none => simp
    | some c =>
      have hcid : c.id = tid := by simpa using List.find?_some hq
      simp [hcid, hne]
  · simp only [targetLikesCount, getComment]
    rw [hcomments, find?_comments_update]
    have : st.comments.find? (fun c => decide (c.id = pk)) = some comment := hc
    rw [this]
    simp [getComment_id hc]
  · intro tid
    simp only [targetLikesCount, getPost]
    rw [hposts]

/-- Appending a fresh post row with `likes_count = 0` changes no target's
count. -/
theorem targetLikesCount_posts_append (st st' : DBState) (row : PostRow)
    (hposts : st'.posts = st.posts ++ [row]) (hrow : row.likes_count = 0)
    (hcom : st'.comments = st.comments) :
    ∀ tt tid, targetLikesCount st' tt tid = targetLikesCount st tt tid := by
  intro tt tid
  cases tt with
  | post =>
    simp only [targetLikesCount, getPost]
    rw [hposts, List.find?_append]
    cases hq : st.posts.find? (fun p => decide (p.id = tid)) with
    | some p => simp
    | none =>
      by_cases hr : row.id = tid
      · simp [List.find?, hr, hrow]
      · simp [List.find?, hr]
  | comment =>
    simp only [targetLikesCount, getComment]
    rw [hcom]

/-- Appending a fresh comment row with `likes_count = 0`, mirrored. -/
theorem targetLikesCount_comments_append (st st' : DBState) (row : CommentRow)
    (hcomments : st'.comments = st.comments ++ [row]) (hrow : row.likes_count = 0)
    (hposts : st'.posts = st.posts) :
    ∀ tt tid, targetLikesCount st' tt tid = targetLikesCount st tt tid := by
  intro tt tid
  cases tt with
  | post =>
    simp only [targetLikesCount, getPost]
    rw [hposts]
  | comment =>
    simp only [targetLikesCount, getComment]
    rw [hcomments, List.find?_append]
    cases hq : st.comments.find? (fun c => decide (c.id = tid)) with
    | some c => simp
    | none =>
      by_cases hr : row.id = tid
      · simp [List.find?, hr, hrow]
      · simp [List.find?, hr]

theorem likeRowCount_append_like (st st' : DBState) (row : LikeRow)
    (hlikes : st'.likes = st.likes ++ [row]) (tt : TargetType) (tid : Nat) :
    likeRowCount st' tt tid =
      likeRowCount st tt tid +
        (if row.target_type = tt ∧ row.target_id = tid then 1 else 0) := by
  simp only [likeRowCount, hlikes, List.countP_append]
  congr 1
  by_cases hcond : row.target_type = tt ∧ row.target_id = tid
  · simp [List.countP_cons, hcond]
  · simp [List.countP_cons, hcond]

theorem likeRowCount_erase_like (st st' : DBState) (u : Nat) (tt0 : TargetType)
    (pk : Nat) (lk : LikeRow)
    (hfound : st.likes.find? (fun l =>
      decide (l.user_id = u ∧ l.target_type = tt0 ∧ l.target_id = pk)) = some lk)
    (hlikes : st'.likes = st.likes.eraseP (fun l =>
      decide (l.user_id = u ∧ l.target_type = tt0 ∧ l.target_id = pk)))
    (tt : TargetType) (tid : Nat) :
    likeRowCount st' tt tid + (if tt0 = tt ∧ pk = tid then 1 else 0) =
      likeRowCount st tt tid := by
  by_cases hcond : tt0 = tt ∧ pk = tid
  · obtain ⟨h1, h2⟩ := hcond
    subst h1
    subst h2
    rw [if_pos ⟨rfl, rfl⟩]
    simp only [likeRowCount, hlikes]
    refine countP_eraseP_found _ _ st.likes lk hfound (fun x hx => ?_)
    simp only [decide_eq_true_eq] at hx ⊢
    exact ⟨hx.2.1, hx.2.2⟩
  · rw [if_neg hcond]
    simp only [likeRowCount, hlikes, Nat.add_zero]
    refine countP_eraseP_not _ _ st.likes (fun x hx => ?_)
    simp only [decide_eq_true_eq] at hx
    simp only [decide_eq_false_iff_not]
    intro hcontra
    exact hcond ⟨hx.2.1 ▸ hcontra.1, hx.2.2 ▸ hcontra.2⟩

/-- One request preserves `likes_count = number of Like rows` for every
target, and changes the row count by exactly the observed successful
creation/deletion. -/
theorem applyOp_step (tt : TargetType) (tid : Nat) (st : DBState) (op : Op)
    (h : targetLikesCount st tt tid = (likeRowCount st tt tid : Int)) :
    targetLikesCount (applyOp st op) tt tid =
      (likeRowCount (applyOp st op) tt tid : Int) ∧
    likeRowCount (applyOp st op) tt tid + deletedBy tt tid st op =
      likeRowCount st tt tid + createdBy tt tid st op := by
  cases op with
  | likePost u' pk now =>
    simp only [applyOp, createdBy, deletedBy]
    rcases post_like_spec u' pk now st with ⟨hfail, hstate⟩ | ⟨u, post, hu, hp, hl, hsucc⟩
    · rw [hstate]
      simp [hfail, h]
    · subst hu
      have heq := post_like_success_eq u pk now st post hp hl
      have hlikes : (post_like (some u) pk now st).2.likes =
          st.likes ++ [⟨u, .post, pk⟩] := by rw [heq]
      have hrc := likeRowCount_append_like st (post_like (some u) pk now st).2
        ⟨u, .post, pk⟩ hlikes
      obtain ⟨hother, hself, hcomm⟩ :=
        targetLikesCount_posts_update st (post_like (some u) pk now st).2 pk 1 post hp
          (by rw [heq]) (by rw [heq])
      have hcst : targetLikesCount st .post pk = post.likes_count := by
        simp [targetLikesCount, hp]
      constructor
      · rw [hrc tt tid]
        by_cases hm : tt = .post ∧ tid = pk
        · obtain ⟨h1, h2⟩ := hm
          subst h1
          subst h2
          rw [hself, if_pos ⟨rfl, rfl⟩]
          rw [hcst] at h
          push_cast
          omega
        · rw [if_neg (by
            intro hc
            exact hm ⟨hc.1.symm, hc.2.symm⟩)]
          cases tt with
          | post =>
            have hne : tid ≠ pk := fun hcon => hm ⟨rfl, hcon⟩
            rw [hother tid hne]
            simpa using h
          | comment =>
            rw [hcomm tid]
            simpa using h
      · rw [hrc tt tid, hsucc]
        by_cases hm : tt = .post ∧ tid = pk
        · rw [if_pos ⟨hm.1.symm, hm.2.symm⟩, if_pos ⟨hm.1, hm.2, rfl⟩]
        · rw [if_neg (by
            intro hc
            exact hm ⟨hc.1.symm, hc.2.symm⟩),
            if_neg (by
              intro hc
              exact hm ⟨hc.1, hc.2.1⟩)]
  | likeComment u' pk now =>
    simp only [applyOp, createdBy, deletedBy]
    rcases comment_like_spec u' pk now st with ⟨hfail, hstate⟩ | ⟨u, comment, hu, hp, hl, hsucc⟩
    · rw [hstate]
      simp [hfail, h]
    · subst hu
      have heq := comment_like_success_eq u pk now st comment hp hl
      have hlikes : (comment_like (some u) pk now st).2.likes =
          st.likes ++ [⟨u, .comment, pk⟩] := by rw [heq]
      have hrc := likeRowCount_append_like st (comment_like (some u) pk now st).2
        ⟨u, .comment, pk⟩ hlikes
      obtain ⟨hother, hself, hposts⟩ :=
        targetLikesCount_comments_update st (comment_like (some u) pk now st).2 pk 1 comment hp
          (by rw [heq]) (by rw [heq])
      have hcst : targetLikesCount st .comment pk = comment.likes_count := by
        simp [targetLikesCount, hp]
      constructor
      · rw [hrc tt tid]
        by_cases hm : tt = .comment ∧ tid = pk
        · obtain ⟨h1, h2⟩ := hm
          subst h1
          subst h2
          rw [hself, if_pos ⟨rfl, rfl⟩]
          rw [hcst] at h
          push_cast
          omega
        · rw [if_neg (by
            intro hc
            exact hm ⟨hc.1.symm, hc.2.symm⟩)]
          cases tt with
          | comment =>
            have hne : tid ≠ pk := fun hcon => hm ⟨rfl, hcon⟩
            rw [hother tid hne]
            simpa using h
          | post =>
            rw [hposts tid]
            simpa using h
      · rw [hrc tt tid, hsucc]
        by_cases hm : tt = .comment ∧ tid = pk
        · rw [if_pos ⟨hm.1.symm, hm.2.symm⟩, if_pos ⟨hm.1, hm.2, rfl⟩]
        · rw [if_neg (by
            intro hc
            exact hm ⟨hc.1.symm, hc.2.symm⟩),
            if_neg (by
              intro hc
              exact hm ⟨hc.1, hc.2.1⟩)]
  | unlikePost u' pk =>
    simp only [applyOp, createdBy, deletedBy]
    rcases post_unlike_spec u' pk st with ⟨hfail, hstate⟩ | ⟨u, post, lk, hu, hp, hf, hsucc⟩
    · rw [hstate]
      simp [hfail, h]
    · subst hu
      have heq := post_unlike_success_eq u pk st post hp lk hf
      have hlikes : (post_unlike (some u) pk st).2.likes =
          st.likes.eraseP (fun l =>
            decide (l.user_id = u ∧ l.target_type = .post ∧ l.target_id = pk)) := by
        rw [heq]
      have hrc := likeRowCount_erase_like st (post_unlike (some u) pk st).2 u .post pk lk
        hf hlikes
      obtain ⟨hother, hself, hcomm⟩ :=
        targetLikesCount_posts_update st (post_unlike (some u) pk st).2 pk (-1) post hp
          (by rw [heq]) (by rw [heq])
      have hcst : targetLikesCount st .post pk = post.likes_count := by
        simp [targetLikesCount, hp]
      constructor
      · by_cases hm : tt = .post ∧ tid = pk
        · obtain ⟨h1, h2⟩ := hm
          subst h1
          subst h2
          have hr := hrc .post tid
          rw [if_pos ⟨rfl, rfl⟩] at hr
          rw [hself]
          rw [hcst] at h
          omega
        · have hr := hrc tt tid
          rw [if_neg (by
            intro hc
            exact hm ⟨hc.1.symm, hc.2.symm⟩), Nat.add_zero] at hr
          rw [hr]
          cases tt with
          | post =>
            have hne : tid ≠ pk := fun hcon => hm ⟨rfl, hcon⟩
            rw [hother tid hne]
            simpa using h
          | comment =>
            rw [hcomm tid]
            simpa using h
      · rw [hsucc]
        by_cases hm : tt = .post ∧ tid = pk
        · have hr := hrc tt tid
          rw [if_pos ⟨hm.1.symm, hm.2.symm⟩] at hr
          rw [if_pos ⟨hm.1, hm.2, rfl⟩]
          omega
        · have hr := hrc tt tid
          rw [if_neg (by
            intro hc
            exact hm ⟨hc.1.symm, hc.2.symm⟩)] at hr
          rw [if_neg (by
            intro hc
            exact hm ⟨hc.1, hc.2.1⟩)]
          omega
  | unlikeComment u' pk =>
    simp only [applyOp, createdBy, deletedBy]
    rcases comment_unlike_spec u' pk st with ⟨hfail, hstate⟩ | ⟨u, comment, lk, hu, hp, hf, hsucc⟩
    · rw [hstate]
      simp [hfail, h]
    · subst hu
      have heq := comment_unlike_success_eq u pk st comment hp lk hf
      have hlikes : (comment_unlike (some u) pk st).2.likes =
          st.likes.eraseP (fun l =>
            decide (l.user_id = u ∧ l.target_type = .comment ∧ l.target_id = pk)) := by
        rw [heq]
      have hrc := likeRowCount_erase_like st (comment_unlike (some u) pk st).2 u .comment pk
        lk hf hlikes
      obtain ⟨hother, hself, hposts⟩ :=
        targetLikesCount_comments_update st (comment_unlike (some u) pk st).2 pk (-1)
          comment hp (by rw [heq]) (by rw [heq])
      have hcst : targetLikesCount st .comment pk = comment.likes_count := by
        simp [targetLikesCount, hp]
      constructor
      · by_cases hm : tt = .comment ∧ tid = pk
        · obtain ⟨h1, h2⟩ := hm
          subst h1
          subst h2
          have hr := hrc .comment tid
          rw [if_pos ⟨rfl, rfl⟩] at hr
          rw [hself]
          rw [hcst] at h
          omega
        · have hr := hrc tt tid
          rw [if_neg (by
            intro hc
            exact hm ⟨hc.1.symm, hc.2.symm⟩), Nat.add_zero] at hr
          rw [hr]
          cases tt with
          | comment =>
            have hne : tid ≠ pk := fun hcon => hm ⟨rfl, hcon⟩
            rw [hother tid hne]
            simpa using h
          | post =>
            rw [hposts tid]
            simpa using h
      · rw [hsucc]
        by_cases hm : tt = .comment ∧ tid = pk
        · have hr := hrc tt tid
          rw [if_pos ⟨hm.1.symm, hm.2.symm⟩] at hr
          rw [if_pos ⟨hm.1, hm.2, rfl⟩]
          omega
        · have hr := hrc tt tid
          rw [if_neg (by
            intro hc
            exact hm ⟨hc.1.symm, hc.2.symm⟩)] at hr
          rw [if_neg (by
            intro hc
            exact hm ⟨hc.1, hc.2.1⟩)]
          omega
  | createPost u' content =>
    simp only [applyOp, createdBy, deletedBy]
    rcases post_create_spec u' content st with hstate | ⟨u, hu, hstate⟩
    · rw [hstate]
      exact ⟨h, rfl⟩
    · have hlikes : (post_create u' content st).2.likes = st.likes := by rw [hstate]
      have hcnt := targetLikesCount_posts_append st (post_create u' content st).2
        ⟨nextPostId st, u, content.trim, 0⟩ (by rw [hstate]) rfl (by rw [hstate]) tt tid
      have hrc2 : likeRowCount (post_create u' content st).2 tt tid =
          likeRowCount st tt tid := by
        simp only [likeRowCount, hlikes]
      rw [hcnt, hrc2]
      exact ⟨h, rfl⟩
  | createComment u' postId parent content =>
    simp only [applyOp, createdBy, deletedBy]
    rcases comment_create_spec u' postId parent content st with hstate | ⟨u, hu, hstate⟩
    · rw [hstate]
      exact ⟨h, rfl⟩
    · have hlikes : (comment_create u' postId parent content st).2.likes = st.likes := by
        rw [hstate]
      have hcnt := targetLikesCount_comments_append st
        (comment_create u' postId parent content st).2
        ⟨nextCommentId st, postId, parent, u, content.trim, 0⟩
        (by rw [hstate]) rfl (by rw [hstate]) tt tid
      have hrc2 : likeRowCount (comment_create u' postId parent content st).2 tt tid =
          likeRowCount st tt tid := by
        simp only [likeRowCount, hlikes]
      rw [hcnt, hrc2]
      exact ⟨h, rfl⟩

/-- Folding a request trace preserves the count/row invariant and balances
the counters. -/
theorem runOps_inv (tt : TargetType) (tid : Nat) :
    ∀ (ops : List Op) (st : DBState) (c d : Nat),
      targetLikesCount st tt tid = (likeRowCount st tt tid : Int) →
      (targetLikesCount (ops.foldl (opStep tt tid) (st, c, d)).1 tt tid =
        ((likeRowCount (ops.foldl (opStep tt tid) (st, c, d)).1 tt tid : Int))) ∧
      likeRowCount (ops.foldl (opStep tt tid) (st, c, d)).1 tt tid
          + (ops.foldl (opStep tt tid) (st, c, d)).2.2 + c =
        likeRowCount st tt tid + (ops.foldl (opStep tt tid) (st, c, d)).2.1 + d := by
  intro ops
  induction ops with
  | nil =>
    intro st c d h
    simp only [List.foldl_nil]
    exact ⟨h, by omega⟩
  | cons op rest ih =>
    intro st c d h
    rw [List.foldl_cons]
    obtain ⟨h1, h2⟩ := applyOp_step tt tid st op h
    obtain ⟨ha, hb⟩ := ih (applyOp st op)
      (c + createdBy tt tid st op) (d + deletedBy tt tid st op) h1
    simp only [opStep]
    exact ⟨ha, by omega⟩

/-! ### Theorems: counter conservation -/

/-- C8: over any request trace starting from a state in which the target
is fresh (`likes_count = 0`, no `Like` rows), the target's `likes_count`
always equals the number of successful like creations minus the number of
successful like deletions for it, and never goes negative. -/
theorem c8_counter_conservation (tt : TargetType) (tid : Nat) (st0 : DBState)
    (ops : List Op)
    (h0 : targetLikesCount st0 tt tid = 0)
    (hrows : likeRowCount st0 tt tid = 0) :
    targetLikesCount (runOps tt tid st0 ops).1 tt tid =
      ((runOps tt tid st0 ops).2.1 : Int) - ((runOps tt tid st0 ops).2.2 : Int) ∧
    0 ≤ targetLikesCount (runOps tt tid st0 ops).1 tt tid := by
  have hInv : targetLikesCount st0 tt tid = (likeRowCount st0 tt tid : Int) := by
    rw [h0, hrows]
    rfl
  obtain ⟨h1, h2⟩ := runOps_inv tt tid ops st0 0 0 hInv
  rw [hrows] at h2
  simp only [runOps]
  refine ⟨?_, ?_⟩
  · rw [h1]
    omega
  · rw [h1]
    exact Int.natCast_nonneg _

/-- Witness for `c8_counter_conservation`: like, duplicate like and unlike
of post 10, giving one creation and one deletion. -/
theorem c8_counter_conservation_witness :
    targetLikesCount sampleState .post 10 = 0 ∧
    likeRowCount sampleState .post 10 = 0 ∧
    (targetLikesCount (runOps .post 10 sampleState
        [.likePost (some 1) 10 100, .likePost (some 1) 10 101,
         .unlikePost (some 1) 10]).1 .post 10 =
      ((runOps .post 10 sampleState
        [.likePost (some 1) 10 100, .likePost (some 1) 10 101,
         .unlikePost (some 1) 10]).2.1 : Int) -
        ((runOps .post 10 sampleState
          [.likePost (some 1) 10 100, .likePost (some 1) 10 101,
           .unlikePost (some 1) 10]).2.2 : Int) ∧
      0 ≤ targetLikesCount (runOps .post 10 sampleState
        [.likePost (some 1) 10 100, .likePost (some 1) 10 101,
         .unlikePost (some 1) 10]).1 .post 10) :=
  ⟨by decide, by decide,
    c8_counter_conservation .post 10 sampleState
      [.likePost (some 1) 10 100, .likePost (some 1) 10 101,
       .unlikePost (some 1) 10] (by decide) (by decide)⟩

/-! ### Theorems: every karma transaction is +5 or +1 -/

/-- C10: one request either leaves the `KarmaTransaction` ledger untouched
or appends exactly one transaction, whose amount is +5 or +1 — in
particular strictly positive, although the column is a signed integer: no
code path writes a non-positive amount. -/
theorem c10_karma_amounts_positive (st : DBState) (op : Op) :
    (applyOp st op).karma = st.karma ∨
    ∃ t, (applyOp st op).karma = st.karma ++ [t] ∧
      (t.amount = 5 ∨ t.amount = 1) ∧ 0 < t.amount := by
  cases op with
  | likePost u' pk now =>
    simp only [applyOp]
    rcases post_like_spec u' pk now st with ⟨_, hstate⟩ | ⟨u, post, hu, hp, hl, _⟩
    · rw [hstate]
      exact Or.inl rfl
    · subst hu
      have heq := post_like_success_eq u pk now st post hp hl
      exact Or.inr ⟨⟨post.author_id, 5, .post_like, pk, some u, now⟩,
        by rw [heq], Or.inl rfl, by norm_num⟩
  | likeComment u' pk now =>
    simp only [applyOp]
    rcases comment_like_spec u' pk now st with ⟨_, hstate⟩ | ⟨u, comment, hu, hp, hl, _⟩
    · rw [hstate]
      exact Or.inl rfl
    · subst hu
      have heq := comment_like_success_eq u pk now st comment hp hl
      exact Or.inr ⟨⟨comment.author_id, 1, .comment_like, pk, some u, now⟩,
        by rw [heq], Or.inr rfl, by norm_num⟩
  | unlikePost u' pk =>
    simp only [applyOp]
    rcases post_unlike_spec u' pk st with ⟨_, hstate⟩ | ⟨u, post, lk, hu, hp, hf, _⟩
    · rw [hstate]
      exact Or.inl rfl
    · subst hu
      have heq := post_unlike_success_eq u pk st post hp lk hf
      exact Or.inl (by rw [heq])
  | unlikeComment u' pk =>
    simp only [applyOp]
    rcases comment_unlike_spec u' pk st with ⟨_, hstate⟩ | ⟨u, comment, lk, hu, hp, hf, _⟩
    · rw [hstate]
      exact Or.inl rfl
    · subst hu
      have heq := comment_unlike_success_eq u pk st comment hp lk hf
      exact Or.inl (by rw [heq])
  | createPost u' content =>
    simp only [applyOp]
    rcases post_create_spec u' content st with hstate | ⟨u, hu, hstate⟩
    · rw [hstate]
      exact Or.inl rfl
    · exact Or.inl (by rw [hstate])
  | createComment u' postId parent content =>
    simp only [applyOp]
    rcases comment_create_spec u' postId parent content st with hstate | ⟨u, hu, hstate⟩
    · rw [hstate]
      exact Or.inl rfl
    · exact Or.inl (by rw [hstate])

/-! ### Supporting lemmas for the leaderboard -/

theorem mem_insert_desc {e x : Nat × Int} :
    ∀ {l : List (Nat × Int)}, x ∈ insert_desc e l → x = e ∨ x ∈ l := by
  intro l
  induction l with
  | nil =>
    intro hx
    simp [insert_desc] at hx
    exact Or.inl hx
  | cons f fs ih =>
    intro hx
    simp only [insert_desc] at hx
    by_cases hc : f.2 ≤ e.2
    · rw [if_pos hc] at hx
      rcases List.mem_cons.mp hx with h1 | h2
      · exact Or.inl h1
      · exact Or.inr h2
    · rw [if_neg hc] at hx
      rcases List.mem_cons.mp hx with h1 | h2
      · exact Or.inr (by simp [h1])
      · rcases ih h2 with h3 | h4
        · exact Or.inl h3
        · exact Or.inr (by simp [h4])

theorem mem_sort_desc {x : Nat × Int} :
    ∀ {l : List (Nat × Int)}, x ∈ sort_desc l → x ∈ l := by
  intro l
  induction l with
  | nil =>
    intro hx
    simp [sort_desc] at hx
  | cons f fs ih =>
    intro hx
    simp only [sort_desc] at hx
    rcases mem_insert_desc hx with h1 | h2
    · simp [h1]
    · simp [ih h2]

theorem insert_desc_sorted (e : Nat × Int) :
    ∀ (l : List (Nat × Int)), l.Pairwise (fun a b => b.2 ≤ a.2) →
      (insert_desc e l).Pairwise (fun a b => b.2 ≤ a.2) := by
  intro l
  induction l with
  | nil =>
    intro _
    simp [insert_desc]
  | cons f fs ih =>
    intro hp
    rw [List.pairwise_cons] at hp
    obtain ⟨hf, hfs⟩ := hp
    simp only [insert_desc]
    by_cases hc : f.2 ≤ e.2
    · rw [if_pos hc]
      refine List.Pairwise.cons ?_ (List.Pairwise.cons hf hfs)
      intro x hx
      rcases List.mem_cons.mp hx with h1 | h2
      · rw [h1]
        exact hc
      · exact le_trans (hf _ h2) hc
    · rw [if_neg hc]
      refine List.Pairwise.cons ?_ (ih hfs)
      intro x hx
      rcases mem_insert_desc hx with h1 | h2
      · rw [h1]
        exact le_of_not_le hc
      · exact hf _ h2

theorem sort_desc_sorted :
    ∀ (l : List (Nat × Int)), (sort_desc l).Pairwise (fun a b => b.2 ≤ a.2) := by
  intro l
  induction l with
  | nil => simp [sort_desc]
  | cons f fs ih => exact insert_desc_sorted f _ ih

theorem mem_firstKeys {x : Nat} {l : List Nat} (hx : x ∈ firstKeys l) : x ∈ l := by
  have haux : ∀ (l2 : List Nat) (acc : List Nat),
      x ∈ l2.foldl (fun acc k => if k ∈ acc then acc else acc ++ [k]) acc →
      x ∈ acc ∨ x ∈ l2 := by
    intro l2
    induction l2 with
    | nil =>
      intro acc h
      exact Or.inl h
    | cons k ks ih =>
      intro acc h
      rw [List.foldl_cons] at h
      by_cases hk : k ∈ acc
      · rw [if_pos hk] at h
        rcases ih acc h with h1 | h2
        · exact Or.inl h1
        · exact Or.inr (by simp [h2])
      · rw [if_neg hk] at h
        rcases ih (acc ++ [k]) h with h1 | h2
        · rcases List.mem_append.mp h1 with h3 | h4
          · exact Or.inl h3
          · simp at h4
            exact Or.inr (by simp [h4])
        · exact Or.inr (by simp [h2])
  rcases haux l [] hx with h1 | h2
  · simp at h1
  · exact h2

/-- Every `(user_id, karma)` pair the leaderboard query emits carries the
window sum of its key, is positive, and its key comes from an in-window
transaction. -/
theorem leaderboard_data_mem (now : Int) (txs : List KarmaTransactionRow) :
    ∀ ks ∈ leaderboard_data now txs,
      ks.2 = sumAmounts (recentTxs now txs) ks.1 ∧ 0 < ks.2 ∧
      ks.1 ∈ (recentTxs now txs).map (fun t => t.user_id) := by
  intro ks hks
  have h1 : ks ∈ sort_desc
      (((firstKeys ((recentTxs now txs).map (fun t => t.user_id))).map
        (fun k => (k, sumAmounts (recentTxs now txs) k))).filter
        (fun e => decide (0 < e.2))) := List.take_subset 5 _ hks
  have h2 := mem_sort_desc h1
  rw [List.mem_filter] at h2
  obtain ⟨h3, h4⟩ := h2
  rw [List.mem_map] at h3
  obtain ⟨k, hk, hks2⟩ := h3
  refine ⟨?_, by simpa using h4, ?_⟩
  · rw [← hks2]
  · rw [← hks2]
    exact mem_firstKeys hk

theorem leaderboard_data_sorted (now : Int) (txs : List KarmaTransactionRow) :
    (leaderboard_data now txs).Pairwise (fun a b => b.2 ≤ a.2) :=
  List.Pairwise.sublist (List.take_sublist 5 _) (sort_desc_sorted _)

theorem leaderboard_data_len (now : Int) (txs : List KarmaTransactionRow) :
    (leaderboard_data now txs).length ≤ 5 :=
  List.length_take_le 5 _

/-- Every emitted leaderboard entry embeds a fetched user row and the
karma sum of its data pair. -/
theorem build_result_mem (users : List UserRow) :
    ∀ (l : List (Nat × Int)) (r : Nat) (e : LeaderboardEntry),
      e ∈ build_result users r l →
      ∃ ks ∈ l, ∃ u, users.find? (fun x => decide (x.id = ks.1)) = some u ∧
        e.user = u ∧ e.karma_24h = ks.2 := by
  intro l
  induction l with
  | nil =>
    intro r e he
    simp [build_result] at he
  | cons ks rest ih =>
    intro r e he
    obtain ⟨k, s⟩ := ks
    simp only [build_result] at he
    cases hf : users.find? (fun x => decide (x.id = k)) with
    | some u =>
      rw [hf] at he
      rcases List.mem_cons.mp he with h1 | h2
      · exact ⟨(k, s), by simp, u, hf, by rw [h1], by rw [h1]⟩
      · obtain ⟨ks2, hks2, u2, hu2, he2⟩ := ih (r + 1) e h2
        exact ⟨ks2, by simp [hks2], u2, hu2, he2⟩
    | none =>
      rw [hf] at he
      obtain ⟨ks2, hks2, u2, hu2, he2⟩ := ih (r + 1) e he
      exact ⟨ks2, by simp [hks2], u2, hu2, he2⟩

theorem build_result_length_le (users : List UserRow) :
    ∀ (l : List (Nat × Int)) (r : Nat),
      (build_result users r l).length ≤ l.length := by
  intro l
  induction l with
  | nil =>
    intro r
    simp [build_result]
  | cons ks rest ih =>
    intro r
    obtain ⟨k, s⟩ := ks
    simp only [build_result]
    cases hf : users.find? (fun x => decide (x.id = k)) with
    | some u =>
      simpa using Nat.succ_le_succ (ih (r + 1))
    | none =>
      simp only [List.length_cons]
      exact le_trans (ih (r + 1)) (Nat.le_succ _)

/-- With every recipient resolvable, ranks run consecutively from the
start of the enumeration: the `i`-th emitted entry has rank `r + i`. -/
theorem build_result_rank (users : List UserRow) :
    ∀ (l : List (Nat × Int)) (r i : Nat) (e : LeaderboardEntry),
      (∀ ks ∈ l, (users.find? (fun x => decide (x.id = ks.1))).isSome = true) →
      (build_result users r l).get? i = some e → e.rank = r + i := by
  intro l
  induction l with
  | nil =>
    intro r i e _ h
    simp [build_result] at h
  | cons ks rest ih =>
    intro r i e hAll h
    obtain ⟨k, s⟩ := ks
    obtain ⟨u, hu⟩ := Option.isSome_iff_exists.mp (hAll (k, s) (by simp))
    simp only [build_result, hu] at h
    cases i with
    | zero =>
      simp only [List.get?_cons_zero, Option.some.injEq] at h
      rw [← h]
      rfl
    | succ j =>
      simp only [List.get?_cons_succ] at h
      have := ih (r + 1) j e (fun ks2 hks2 => hAll ks2 (by simp [hks2])) h
      omega

/-- With every recipient resolvable, the emitted karma column equals the
data sums, in order. -/
theorem build_result_karma_map (users : List UserRow) :
    ∀ (l : List (Nat × Int)) (r : Nat),
      (∀ ks ∈ l, (users.find? (fun x => decide (x.id = ks.1))).isSome = true) →
      (build_result users r l).map (fun e => e.karma_24h) =
        l.map (fun ks => ks.2) := by
  intro l
  induction l with
  | nil =>
    intro r _
    rfl
  | cons ks rest ih =>
    intro r hAll
    obtain ⟨k, s⟩ := ks
    obtain ⟨u, hu⟩ := Option.isSome_iff_exists.mp (hAll (k, s) (by simp))
    simp only [build_result, hu, List.map_cons]
    rw [ih (r + 1) (fun ks2 hks2 => hAll ks2 (by simp [hks2]))]

/-! ### Theorems: leaderboard window -/

/-- C6: every served leaderboard entry carries exactly the sum of
transaction amounts for its recipient restricted to
`created_at ≥ now − 24h`; that window sum ranges over precisely the
in-window transactions of the recipient; a recipient all of whose
transactions are older than the window sums to 0 (never to a null); and
appending a transaction older than the window leaves the whole
leaderboard output unchanged. -/
theorem c6_leaderboard_window (now : Int) (txs : List KarmaTransactionRow)
    (users : List UserRow) :
    (∀ e ∈ get_leaderboard now txs users,
      e.karma_24h = sumAmounts (recentTxs now txs) e.user.id) ∧
    (∀ a, sumAmounts (recentTxs now txs) a =
      ((txs.filter (fun t =>
        decide (window_start now ≤ t.created_at ∧ t.user_id = a))).map
        (fun t => t.amount)).sum) ∧
    (∀ a, (∀ t ∈ txs, t.user_id = a → t.created_at < window_start now) →
      sumAmounts (recentTxs now txs) a = 0) ∧
    (∀ t, t.created_at < window_start now →
      get_leaderboard now (txs ++ [t]) users = get_leaderboard now txs users) := by
  refine ⟨?_, ?_, ?_, ?_⟩
  · intro e he
    obtain ⟨ks, hks, u, hu, heu, hek⟩ := build_result_mem users _ 1 e he
    obtain ⟨hsum, _, _⟩ := leaderboard_data_mem now txs ks hks
    have hid : u.id = ks.1 := by simpa using List.find?_some hu
    rw [hek, hsum, heu, hid]
  · intro a
    simp only [sumAmounts, recentTxs, List.filter_filter]
    have hfil : List.filter
        (fun t => decide (t.user_id = a) && decide (window_start now ≤ t.created_at)) txs =
        List.filter
          (fun t => decide (window_start now ≤ t.created_at ∧ t.user_id = a)) txs := by
      refine List.filter_congr ?_
      intro t _
      by_cases h1 : t.user_id = a <;> by_cases h2 : window_start now ≤ t.created_at <;>
        simp [h1, h2]
    rw [hfil]
  · intro a hold
    have hemp : (recentTxs now txs).filter (fun t => decide (t.user_id = a)) = [] := by
      rw [List.filter_eq_nil_iff]
      intro t ht
      obtain ⟨htmem, htrec⟩ := List.mem_filter.mp ht
      simp only [decide_eq_true_eq] at htrec ⊢
      intro hua
      have h2 := hold t htmem hua
      omega
    rw [sumAmounts, hemp]
    rfl
  · intro t ht
    have hr : recentTxs now (txs ++ [t]) = recentTxs now txs := by
      rw [recentTxs, recentTxs, List.filter_append]
      have hone : List.filter (fun t2 =>
          decide (window_start now ≤ t2.created_at)) [t] = [] := by
        simp [show ¬(window_start now ≤ t.created_at) from not_le.mpr ht]
      rw [hone, List.append_nil]
    simp only [get_leaderboard, leaderboard_data]
    rw [hr]

/-- Concrete transactions for the leaderboard witnesses, at `now` =
1000000: recipients 1 (sum 6) and 2 (sum 5) in-window, recipient 3 with a
negative in-window sum, and one out-of-window transaction for 2. -/
def sampleTxs : List KarmaTransactionRow :=
  [⟨1, 5, .post_like, 0, none, 999000⟩,
   ⟨2, 5, .post_like, 1, none, 998000⟩,
   ⟨1, 1, .comment_like, 2, none, 997000⟩,
   ⟨3, -3, .post_like, 3, none, 999500⟩,
   ⟨2, 5, .post_like, 4, none, 900000⟩]

/-- User rows for the leaderboard witnesses. -/
def sampleUsers : List UserRow :=
  [⟨1, 100⟩, ⟨2, 200⟩, ⟨3, 300⟩]

/-- Witness for `c6_leaderboard_window`: an out-of-window transaction for
recipient 9 does not change the output. -/
theorem c6_leaderboard_window_witness :
    (⟨9, 7, .post_like, 0, none, 0⟩ : KarmaTransactionRow).created_at <
      window_start 1000000 ∧
    get_leaderboard 1000000 (sampleTxs ++ [⟨9, 7, .post_like, 0, none, 0⟩])
        sampleUsers =
      get_leaderboard 1000000 sampleTxs sampleUsers :=
  ⟨by decide,
    (c6_leaderboard_window 1000000 sampleTxs sampleUsers).2.2.2
      ⟨9, 7, .post_like, 0, none, 0⟩ (by decide)⟩

/-! ### Theorems: leaderboard ranking shape -/

/-- C7: under referential integrity of the recipient column, the served
leaderboard contains only strictly positive window sums, is ordered
descending by them, never exceeds 5 entries, and numbers its entries with
consecutive ranks starting at 1 in output order. -/
theorem c7_leaderboard_ranking (now : Int) (txs : List KarmaTransactionRow)
    (users : List UserRow)
    (hfk : ∀ t ∈ txs, (users.find? (fun x => decide (x.id = t.user_id))).isSome = true) :
    (∀ e ∈ get_leaderboard now txs users, 0 < e.karma_24h) ∧
    (get_leaderboard now txs users).Pairwise
      (fun e f => f.karma_24h ≤ e.karma_24h) ∧
    (get_leaderboard now txs users).length ≤ 5 ∧
    (∀ i e, (get_leaderboard now txs users).get? i = some e → e.rank = i + 1) := by
  have hAll : ∀ ks ∈ leaderboard_data now txs,
      (users.find? (fun x => decide (x.id = ks.1))).isSome = true := by
    intro ks hks
    obtain ⟨_, _, hkey⟩ := leaderboard_data_mem now txs ks hks
    rw [List.mem_map] at hkey
    obtain ⟨t, htrec, hteq⟩ := hkey
    have htx : t ∈ txs := (List.mem_filter.mp htrec).1
    rw [← hteq]
    exact hfk t htx
  simp only [get_leaderboard]
  refine ⟨?_, ?_, ?_, ?_⟩
  · intro e he
    obtain ⟨ks, hks, u, hu, heu, hek⟩ := build_result_mem users _ 1 e he
    obtain ⟨_, hpos, _⟩ := leaderboard_data_mem now txs ks hks
    rw [hek]
    exact hpos
  · have hkmap := build_result_karma_map users (leaderboard_data now txs) 1 hAll
    have h2 : ((leaderboard_data now txs).map (fun ks => ks.2)).Pairwise
        (fun x y => y ≤ x) :=
      (List.pairwise_map).mpr (leaderboard_data_sorted now txs)
    rw [← hkmap] at h2
    exact (List.pairwise_map).mp h2
  · exact le_trans (build_result_length_le users _ 1) (leaderboard_data_len now txs)
  · intro i e hie
    have := build_result_rank users (leaderboard_data now txs) 1 i e hAll hie
    omega

/-- Witness for `c7_leaderboard_ranking` on the concrete transactions:
every recipient resolves, and the four ranking properties hold. -/
theorem c7_leaderboard_ranking_witness :
    (∀ t ∈ sampleTxs,
      (sampleUsers.find? (fun x => decide (x.id = t.user_id))).isSome = true) ∧
    ((∀ e ∈ get_leaderboard 1000000 sampleTxs sampleUsers, 0 < e.karma_24h) ∧
      (get_leaderboard 1000000 sampleTxs sampleUsers).Pairwise
        (fun e f => f.karma_24h ≤ e.karma_24h) ∧
      (get_leaderboard 1000000 sampleTxs sampleUsers).length ≤ 5 ∧
      (∀ i e, (get_leaderboard 1000000 sampleTxs sampleUsers).get? i = some e →
        e.rank = i + 1)) :=
  ⟨by decide, c7_leaderboard_ranking 1000000 sampleTxs sampleUsers (by decide)⟩

/-! ### Theorems: the leaderboard never reads the cached total -/

theorem find?_id_congr (users1 users2 : List UserRow)
    (hids : users1.map (fun x => x.id) = users2.map (fun x => x.id)) (k : Nat) :
    Option.map (fun x => x.id) (users1.find? (fun x => decide (x.id = k))) =
    Option.map (fun x => x.id) (users2.find? (fun x => decide (x.id = k))) := by
  induction users1 generalizing users2 with
  | nil =>
    cases users2 with
    | nil => rfl
    | cons b bs => simp at hids
  | cons a as ih =>
    cases users2 with
    | nil => simp at hids
    | cons b bs =>
      simp only [List.map_cons, List.cons.injEq] at hids
      obtain ⟨hab, htl⟩ := hids
      by_cases hk : a.id = k
      · rw [List.find?_cons_of_pos _ (by simpa using hk),
          List.find?_cons_of_pos _ (by simp [← hab, hk])]
        simp only [Option.map_some']
        rw [hk, ← hab, hk]
      · rw [List.find?_cons_of_neg _ (by simpa using hk),
          List.find?_cons_of_neg _ (by simp [← hab, hk])]
        exact ih bs htl

/-- C9: the leaderboard computation never reads the cached `total_karma`:
two user tables bearing the same ids position for position — and hence
arbitrary, possibly different `total_karma` values — produce the same
(actor id, 24h karma, rank) sequence from the same transactions. -/
theorem c9_leaderboard_ignores_total_karma (now : Int)
    (txs : List KarmaTransactionRow) (users1 users2 : List UserRow)
    (hids : users1.map (fun x => x.id) = users2.map (fun x => x.id)) :
    (get_leaderboard now txs users1).map (fun e => (e.user.id, e.karma_24h, e.rank)) =
    (get_leaderboard now txs users2).map
      (fun e => (e.user.id, e.karma_24h, e.rank)) := by
  simp only [get_leaderboard]
  have haux : ∀ (l : List (Nat × Int)) (r : Nat),
      (build_result users1 r l).map (fun e => (e.user.id, e.karma_24h, e.rank)) =
      (build_result users2 r l).map (fun e => (e.user.id, e.karma_24h, e.rank)) := by
    intro l
    induction l with
    | nil =>
      intro r
      rfl
    | cons ks rest ih =>
      intro r
      obtain ⟨k, s⟩ := ks
      have hcong := find?_id_congr users1 users2 hids k
      cases h1 : users1.find? (fun x => decide (x.id = k)) with
      | none =>
        cases h2 : users2.find? (fun x => decide (x.id = k)) with
        | none =>
          simp only [build_result, h1, h2]
          exact ih (r + 1)
        | some u2 =>
          rw [h1, h2] at hcong
          simp at hcong
      | some u1 =>
        cases h2 : users2.find? (fun x => decide (x.id = k)) with
        | none =>
          rw [h1, h2] at hcong
          simp at hcong
        | some u2 =>
          rw [h1, h2] at hcong
          simp only [Option.map_some'] at hcong
          have hid : u1.id = u2.id := by injection hcong
          simp only [build_result, h1, h2, List.map_cons]
          rw [ih (r + 1), hid]
  exact haux (leaderboard_data now txs) 1

/-- Witness for `c9_leaderboard_ignores_total_karma`: the same ids with
completely different cached totals give the same projected output. -/
theorem c9_leaderboard_ignores_total_karma_witness :
    (sampleUsers.map (fun x => x.id) =
      ([⟨1, 0⟩, ⟨2, 9999⟩, ⟨3, 7⟩] : List UserRow).map (fun x => x.id)) ∧
    (get_leaderboard 1000000 sampleTxs sampleUsers).map
        (fun e => (e.user.id, e.karma_24h, e.rank)) =
      (get_leaderboard 1000000 sampleTxs [⟨1, 0⟩, ⟨2, 9999⟩, ⟨3, 7⟩]).map
        (fun e => (e.user.id, e.karma_24h, e.rank)) :=
  ⟨by decide,
    c9_leaderboard_ignores_total_karma 1000000 sampleTxs sampleUsers
      [⟨1, 0⟩, ⟨2, 9999⟩, ⟨3, 7⟩] (by decide)⟩

end Feed
